import Mathlib

/-!
# Verification of the ncollide collision pipeline core

A shallow embedding of the collision-detection pipeline of the `ncollide`
repository (files `src/pipeline/narrow_phase/narrow_phase.rs`,
`src/pipeline/world/collision_world.rs`), together with proofs about it.

Modelling conventions:
* Rust functions that can panic are embedded as `Option`-returning functions;
  `none` models a panic.
* The scalar type `N : RealField` is instantiated with `ℚ`.
* Handles (collision-object handles, broad-phase proxy handles, graph node
  indices, shape handles) are natural numbers.  Geometric data (isometries,
  shapes, collision-group descriptors, user payloads) is opaque to every
  claim, so each is embedded as an opaque `Nat` token.
* Trait objects whose concrete code lives outside this crate's pipeline core
  (contact-manifold generators, proximity detectors, dispatchers) are
  embedded as data (an opaque `Nat` state) plus an explicit behaviour
  environment passed to each call; theorems quantify over all behaviours.
* `SlotMap<ContactId, bool>` (the `slotmap` crate) is embedded as an
  association list with a fresh-key counter; indexing a dead key panics.
* AABBs are embedded as the term algebra of the operations the pipeline
  performs on them (`bounding_volume::aabb`, `loosen`, `merge`); the broad
  phase records its deferred operations in an operation log.
-/

namespace NcollideSpec

/-- Proximity status (`query::Proximity`). -/
inductive Proximity where
  | Disjoint
  | WithinMargin
  | Intersecting
deriving DecidableEq, Repr

/-- `GeometricQueryType<N>` (`pipeline::world`): per-object query policy. -/
inductive GeometricQueryType where
  | Contacts (linear angular : ℚ)
  | Proximity (margin : ℚ)
deriving DecidableEq, Repr

/-- `GeometricQueryType::query_limit`: the scalar used for AABB loosening. -/
def GeometricQueryType.query_limit : GeometricQueryType → ℚ
  | .Contacts linear _ => linear
  | .Proximity margin => margin

/-- Whether a query type is of the `Contacts(..)` shape. -/
def GeometricQueryType.is_contacts : GeometricQueryType → Bool
  | .Contacts _ _ => true
  | .Proximity _ => false

/-- `ContactPrediction<N>`: prediction parameters combined from two
`Contacts` query types. -/
structure ContactPrediction where
  linear : ℚ
  angular1 : ℚ
  angular2 : ℚ
deriving DecidableEq, Repr

/-- Modelled from the spec: `GeometricQueryType::contact_queries_to_prediction`
is not under `src/` (only its caller `NarrowPhase::update_contact` is).  Per
the spec, "A `Contacts` query can combine with another `Contacts` to form a
prediction; otherwise the combination is invalid for contact updates". -/
def GeometricQueryType.contact_queries_to_prediction :
    GeometricQueryType → GeometricQueryType → Option ContactPrediction
  | .Contacts linear1 angular1, .Contacts linear2 angular2 =>
      some ⟨linear1 + linear2, angular1, angular2⟩
  | _, _ => none

/-- A contact of a manifold.  `id` is the contact identifier (`ContactId`, a
slotmap key); `none` models the null key.  `data` stands for the opaque
geometric payload (positions, normal, depth, kinematics). -/
structure Contact where
  id : Option Nat
  data : Nat
deriving DecidableEq, Repr

/-- `ContactManifold<N>`: the live contact list plus the side cache filled by
`save_cache_and_clear`. -/
structure ContactManifold where
  contacts : List Contact
  cache : List Contact
deriving DecidableEq, Repr

/-- `ContactManifold::len`. -/
def ContactManifold.len (m : ContactManifold) : Nat :=
  m.contacts.length

/-- Modelled from the spec: `ContactManifold::save_cache_and_clear` is not
under `src/`.  Per the spec, it moves the existing contacts into a side cache
and empties the live list. -/
def ContactManifold.save_cache_and_clear (m : ContactManifold) : ContactManifold :=
  { contacts := [], cache := m.contacts }

/-- Modelled from the spec: `ContactManifold::clear` empties the manifold
(releasing its contact identifiers). -/
def ContactManifold.clear (_ : ContactManifold) : ContactManifold :=
  { contacts := [], cache := [] }

/-- `ContactEvent<CollisionObjectHandle>` (`pipeline::events`). -/
inductive ContactEvent where
  | Started (a b : Nat)
  | Stopped (a b : Nat)
deriving DecidableEq, Repr

/-- `ProximityEvent` (`pipeline::events`), as built by `ProximityEvent::new`. -/
structure ProximityEvent where
  collider1 : Nat
  collider2 : Nat
  prev_status : Proximity
  new_status : Proximity
deriving DecidableEq, Repr

/-- The contact-ID allocator `SlotMap<ContactId, bool>`, embedded as an
association list of live slots together with a fresh-key counter. -/
structure IdAlloc where
  next : Nat
  slots : List (Nat × Bool)
deriving DecidableEq, Repr

/-- `SlotMap::insert`: returns the fresh key and the new map. -/
def IdAlloc.insert (a : IdAlloc) (v : Bool) : Nat × IdAlloc :=
  (a.next, ⟨a.next + 1, a.slots ++ [(a.next, v)]⟩)

/-- `SlotMap::contains_key`: whether a key refers to a live slot. -/
def IdAlloc.contains (a : IdAlloc) (k : Nat) : Bool :=
  (a.slots.lookup k).isSome

/-- `slotmap[key] = v`: indexing panics (`none`) if the key is dead. -/
def IdAlloc.set (a : IdAlloc) (k : Nat) (v : Bool) : Option IdAlloc :=
  if (a.slots.lookup k).isSome then
    some ⟨a.next, a.slots.map fun kv => if kv.1 = k then (k, v) else kv⟩
  else
    none

/-- `SlotMap::retain` with the closure
`|_, is_valid| std::mem::replace(is_valid, false)`: keep exactly the slots
whose value is `true`, resetting every kept value to `false`. -/
def IdAlloc.retain (a : IdAlloc) : IdAlloc :=
  ⟨a.next, (a.slots.filter fun kv => kv.2).map fun kv => (kv.1, false)⟩

/-- A proximity detector (`ProximityDetector<N>` trait object): opaque
internal state plus the stored proximity returned by `detector.proximity()`. -/
structure ProxDetector where
  state : Nat
  prox : Proximity
deriving DecidableEq, Repr

/-- Per-edge interaction state (`narrow_phase::Interaction<N>`).  A contact
edge holds the generator's opaque state and the manifold. -/
inductive Interaction where
  | Contact (gen : Nat) (manifold : ContactManifold)
  | Proximity (det : ProxDetector)
deriving DecidableEq, Repr

/-- Behaviour environment for `ContactManifoldGenerator::generate_contacts`:
given the generator state, both positions and shapes, the prediction and the
manifold's cache, produce the repopulated contact list and the new generator
state.  Theorems quantify over all such behaviours. -/
def GenEnv : Type :=
  Nat → Nat → Nat → Nat → Nat → ContactPrediction → List Contact → List Contact × Nat

/-- Behaviour environment for `ProximityDetector::update`: given the detector
state, its current proximity, both positions and shapes and the margin,
produce the new detector state and new proximity. -/
def ProxEnv : Type :=
  Nat → Proximity → Nat → Nat → Nat → Nat → ℚ → Nat × Proximity

/-- `CollisionObject<N, T>` (`pipeline::world`): the per-object record. -/
structure CollisionObject where
  handle : Nat
  proxy_handle : Nat
  graph_index : Nat
  position : Nat
  deformations : List ℚ
  shape : Nat
  collision_groups : Nat
  query_type : GeometricQueryType
  timestamp : Nat
  data : Nat
deriving DecidableEq, Repr

/-- Modelled from the spec: `CollisionObjectSlab<N, T>` is not under `src/`.
Per the spec it is "dense storage with stable handles"; a handle is an index,
a removed slot becomes vacant, and lookup of a vacant or out-of-range handle
misses. -/
structure CollisionObjectSlab where
  entries : List (Option CollisionObject)
deriving DecidableEq, Repr

/-- Slab lookup (`objects.get(handle)`). -/
def CollisionObjectSlab.get (s : CollisionObjectSlab) (h : Nat) : Option CollisionObject :=
  s.entries.getD h none

/-- Slab insertion.  Per the spec the slab is dense storage whose handles are
stable only until removal: a later insertion reclaims the first vacated slot
(as the `slab` crate's free list does), and a fresh slot is appended only
when no vacancy exists. -/
def CollisionObjectSlab.insert (s : CollisionObjectSlab) (co : CollisionObject) :
    Nat × CollisionObjectSlab :=
  match s.entries.findIdx? Option.isNone with
  | some i => (i, ⟨s.entries.set i (some co)⟩)
  | none => (s.entries.length, ⟨s.entries ++ [some co]⟩)

/-- Overwrite the object stored at a live handle (models mutation through
`get_mut` / indexing). -/
def CollisionObjectSlab.set (s : CollisionObjectSlab) (h : Nat) (co : CollisionObject) :
    CollisionObjectSlab :=
  ⟨s.entries.set h (some co)⟩

/-- Slab removal; removing a vacant handle panics (`none`). -/
def CollisionObjectSlab.remove (s : CollisionObjectSlab) (h : Nat) :
    Option (CollisionObject × CollisionObjectSlab) :=
  match s.get h with
  | some co => some (co, ⟨s.entries.set h none⟩)
  | none => none

/-- `NarrowPhase<N>`: event pools and the contact-ID allocator.  The two
dispatchers are trait objects; they are passed explicitly to the functions
that consult them. -/
structure NarrowPhase where
  contact_events : List ContactEvent
  proximity_events : List ProximityEvent
  id_allocator : IdAlloc
deriving DecidableEq, Repr

/-- The for-loop of `update_contact` that allocates a fresh identifier from
the pool for every contact whose ID is null. -/
def allocIds (a : IdAlloc) : List Contact → IdAlloc × List Contact
  | [] => (a, [])
  | c :: rest =>
    match c.id with
    | some _ =>
        let res := allocIds a rest
        (res.1, c :: res.2)
    | none =>
        let ins := a.insert false
        let res := allocIds ins.2 rest
        (res.1, { c with id := some ins.1 } :: res.2)

/-- `NarrowPhase::update_contact` (narrow_phase.rs, lines 60–103).  Returns
the new narrow phase, the new generator state and the new manifold; `none`
models the `IncompatibleQueryTypes` panic. -/
def NarrowPhase.update_contact (genv : GenEnv) (np : NarrowPhase)
    (co1 co2 : CollisionObject) (detector : Nat) (manifold : ContactManifold) :
    Option (NarrowPhase × Nat × ContactManifold) :=
  let had_contacts : Bool := manifold.len != 0
  match co1.query_type.contact_queries_to_prediction co2.query_type with
  | some prediction =>
      let m := manifold.save_cache_and_clear
      let gen := genv detector co1.position co1.shape co2.position co2.shape prediction m.cache
      let m := { m with contacts := gen.1 }
      let alloc := allocIds np.id_allocator m.contacts
      let m := { m with contacts := alloc.2 }
      let np := { np with id_allocator := alloc.1 }
      let np :=
        if m.len = 0 then
          if had_contacts then
            { np with contact_events := np.contact_events ++ [.Stopped co1.handle co2.handle] }
          else np
        else
          if ¬ had_contacts then
            { np with contact_events := np.contact_events ++ [.Started co1.handle co2.handle] }
          else np
      some (np, gen.2, m)
  | none => none

/-- `NarrowPhase::update_proximity` (narrow_phase.rs, lines 106–132). -/
def NarrowPhase.update_proximity (penv : ProxEnv) (np : NarrowPhase)
    (co1 co2 : CollisionObject) (detector : ProxDetector) :
    NarrowPhase × ProxDetector :=
  let prev_prox := detector.prox
  let upd := penv detector.state detector.prox co1.position co1.shape co2.position co2.shape
      (co1.query_type.query_limit + co2.query_type.query_limit)
  let detector : ProxDetector := ⟨upd.1, upd.2⟩
  let new_prox := detector.prox
  if new_prox ≠ prev_prox then
    ({ np with proximity_events :=
        np.proximity_events ++ [⟨co1.handle, co2.handle, prev_prox, new_prox⟩] },
      detector)
  else
    (np, detector)

/-- `NarrowPhase::update_interaction` (narrow_phase.rs, lines 135–148). -/
def NarrowPhase.update_interaction (genv : GenEnv) (penv : ProxEnv) (np : NarrowPhase)
    (co1 co2 : CollisionObject) (interaction : Interaction) :
    Option (NarrowPhase × Interaction) :=
  match interaction with
  | .Contact detector manifold =>
      (np.update_contact genv co1 co2 detector manifold).map fun res =>
        (res.1, .Contact res.2.1 res.2.2)
  | .Proximity detector =>
      let res := np.update_proximity penv co1 co2 detector
      some (res.1, .Proximity res.2)

/-- Swap-removal at an index: the last element moves into the vacated slot
(the removal policy of the `petgraph` node and edge arenas). -/
def swapRemove {α : Type} (l : List α) (i : Nat) : List α :=
  match l.getLast? with
  | none => []
  | some last => (l.set i last).dropLast

/-- The interaction graph (`narrow_phase::InteractionGraph<N>`, a newtype over
a `petgraph` undirected graph).  Node weights are collision-object handles;
an edge stores its two endpoint node indices and its interaction. -/
structure InteractionGraph where
  nodes : List Nat
  edges : List (Nat × Nat × Interaction)
deriving DecidableEq, Repr

/-- `Graph::add_node`: returns the graph and the fresh node index. -/
def InteractionGraph.add_node (g : InteractionGraph) (weight : Nat) :
    InteractionGraph × Nat :=
  ({ g with nodes := g.nodes ++ [weight] }, g.nodes.length)

/-- Whether an edge connects the (unordered) node-index pair `{i, j}`. -/
def edgeBetween (i j : Nat) (e : Nat × Nat × Interaction) : Bool :=
  (e.1 == i && e.2.1 == j) || (e.1 == j && e.2.1 == i)

/-- `Graph::find_edge` on an undirected graph: index of the first edge
between the two node indices. -/
def InteractionGraph.find_edge (g : InteractionGraph) (i j : Nat) : Option Nat :=
  g.edges.findIdx? (edgeBetween i j)

/-- `Graph::contains_edge`. -/
def InteractionGraph.contains_edge (g : InteractionGraph) (i j : Nat) : Bool :=
  (g.find_edge i j).isSome

/-- `Graph::add_edge`: appends the edge; panics (`none`) if either node index
is out of bounds. -/
def InteractionGraph.add_edge (g : InteractionGraph) (i j : Nat) (w : Interaction) :
    Option InteractionGraph :=
  if i < g.nodes.length ∧ j < g.nodes.length then
    some { g with edges := g.edges ++ [(i, j, w)] }
  else
    none

/-- `Graph::remove_edge`: swap-removes the edge at the given edge index and
returns its weight (`none` if the index is out of bounds). -/
def InteractionGraph.remove_edge (g : InteractionGraph) (eid : Nat) :
    Option (InteractionGraph × Interaction) :=
  match g.edges[eid]? with
  | some e => some ({ g with edges := swapRemove g.edges eid }, e.2.2)
  | none => none

/-- Modelled from the spec: `InteractionGraph::remove_node` is not under
`src/`.  Per the spec it removes the node with swap-remove semantics
(incident edges removed, the last node moved into the vacated index) and
"returns the handle now occupying the removed slot, if any". -/
def InteractionGraph.remove_node (g : InteractionGraph) (i : Nat) :
    InteractionGraph × Option Nat :=
  if i < g.nodes.length then
    let last := g.nodes.length - 1
    let keptEdges := g.edges.filter fun e => e.1 ≠ i ∧ e.2.1 ≠ i
    let rewired := keptEdges.map fun e =>
      (if e.1 = last then i else e.1, if e.2.1 = last then i else e.2.1, e.2.2)
    let nodes := swapRemove g.nodes i
    (⟨nodes, rewired⟩, nodes[i]?)
  else
    (g, none)

/-- Modelled from the spec: `SortedPair::new` (`utils`) is not under `src/`;
it orders the two handles so that the first component is the smaller one. -/
def SortedPair.new (h1 h2 : Nat) : Nat × Nat :=
  (min h1 h2, max h1 h2)

/-- Modelled from the spec: `ContactManifoldGenerator::init_manifold` is not
under `src/`.  Per the spec it yields "an empty manifold appropriate to the
shape pair". -/
def init_manifold (_gen : Nat) : ContactManifold :=
  { contacts := [], cache := [] }

/-- A contact dispatcher (`ContactDispatcher<N>`):
`get_contact_algorithm(shape1, shape2)` yielding the initial generator state. -/
def ContactDispatcher : Type := Nat → Nat → Option Nat

/-- A proximity dispatcher (`ProximityDispatcher<N>`):
`get_proximity_algorithm(shape1, shape2)` yielding the detector. -/
def ProximityDispatcher : Type := Nat → Nat → Option ProxDetector

/-- `NarrowPhase::handle_interaction` (narrow_phase.rs, lines 170–239).
`none` models a panic (slab indexing of an unknown handle, or `add_edge` on
an out-of-bounds node index). -/
def NarrowPhase.handle_interaction (cdisp : ContactDispatcher) (pdisp : ProximityDispatcher)
    (np : NarrowPhase) (interactions : InteractionGraph) (objects : CollisionObjectSlab)
    (handle1 handle2 : Nat) (started : Bool) :
    Option (NarrowPhase × InteractionGraph) :=
  let key := SortedPair.new handle1 handle2
  match objects.get key.1, objects.get key.2 with
  | some co1, some co2 =>
    let id1 := co1.graph_index
    let id2 := co2.graph_index
    if started then
      if ¬ interactions.contains_edge id1 id2 then
        match co1.query_type, co2.query_type with
        | .Contacts _ _, .Contacts _ _ =>
          match cdisp co1.shape co2.shape with
          | some detector =>
              (interactions.add_edge id1 id2 (.Contact detector (init_manifold detector))).map
                fun g => (np, g)
          | none => some (np, interactions)
        | _, _ =>
          match pdisp co1.shape co2.shape with
          | some detector =>
              (interactions.add_edge id1 id2 (.Proximity detector)).map fun g => (np, g)
          | none => some (np, interactions)
      else
        some (np, interactions)
    else
      match interactions.find_edge id1 id2 with
      | some eid =>
        match interactions.remove_edge eid with
        | some res =>
          match res.2 with
          | .Contact _ manifold =>
              if manifold.len ≠ 0 then
                some ({ np with contact_events :=
                    np.contact_events ++ [.Stopped co1.handle co2.handle] }, res.1)
              else
                some (np, res.1)
          | .Proximity detector =>
              if detector.prox ≠ Proximity.Disjoint then
                some ({ np with proximity_events :=
                    np.proximity_events ++
                      [⟨co1.handle, co2.handle, detector.prox, Proximity.Disjoint⟩] }, res.1)
              else
                some (np, res.1)
        | none => some (np, interactions)
      | none => some (np, interactions)
  | _, _ => none

/-- The marking pass of `garbage_collect_ids` over one manifold's contacts:
`self.id_allocator[contact.id] = true` for every non-null ID (indexing a dead
key panics). -/
def markContacts (contacts : List Contact) (a : IdAlloc) : Option IdAlloc :=
  match contacts with
  | [] => some a
  | c :: rest =>
    match c.id with
    | some k => (a.set k true).bind (markContacts rest)
    | none => markContacts rest a

/-- The marking pass of `garbage_collect_ids` over all edge weights. -/
def markEdges (edges : List (Nat × Nat × Interaction)) (a : IdAlloc) : Option IdAlloc :=
  match edges with
  | [] => some a
  | e :: rest =>
    match e.2.2 with
    | .Contact _ manifold => (markContacts manifold.contacts a).bind (markEdges rest)
    | .Proximity _ => markEdges rest a

/-- `NarrowPhase::garbage_collect_ids` (narrow_phase.rs, lines 39–56): mark
every contact ID referenced by a live manifold, then retain exactly the
marked slots (resetting the marks).  The graph is only read. -/
def NarrowPhase.garbage_collect_ids (np : NarrowPhase) (interactions : InteractionGraph) :
    Option NarrowPhase :=
  (markEdges interactions.edges np.id_allocator).map fun a =>
    { np with id_allocator := a.retain }

/-- One iteration of the edge loop of `NarrowPhase::update`: look up the
edge's endpoints and objects, and update the interaction when either
endpoint's timestamp equals the current one. -/
def NarrowPhase.update_edge (genv : GenEnv) (penv : ProxEnv)
    (objects : CollisionObjectSlab) (timestamp : Nat)
    (acc : NarrowPhase × InteractionGraph) (eid : Nat) :
    Option (NarrowPhase × InteractionGraph) :=
  let np := acc.1
  let g := acc.2
  match g.edges[eid]? with
  | none => none
  | some e =>
    match g.nodes[e.1]?, g.nodes[e.2.1]? with
    | some h1, some h2 =>
      match objects.get h1, objects.get h2 with
      | some co1, some co2 =>
          if co1.timestamp = timestamp ∨ co2.timestamp = timestamp then
            (np.update_interaction genv penv co1 co2 e.2.2).map fun res =>
              (res.1, { g with edges := g.edges.set eid (e.1, e.2.1, res.2) })
          else
            some (np, g)
      | _, _ => none
    | _, _ => none

/-- `NarrowPhase::update` (narrow_phase.rs, lines 154–167): walk every edge,
update the ones with a touched endpoint, then garbage-collect contact IDs. -/
def NarrowPhase.update (genv : GenEnv) (penv : ProxEnv) (np : NarrowPhase)
    (interactions : InteractionGraph) (objects : CollisionObjectSlab) (timestamp : Nat) :
    Option (NarrowPhase × InteractionGraph) := do
  let res ← (List.range interactions.edges.length).foldlM
    (NarrowPhase.update_edge genv penv objects timestamp) (np, interactions)
  let np ← res.1.garbage_collect_ids res.2
  some (np, res.2)

/-- `NarrowPhase::handle_collision_object_added` (narrow_phase.rs,
lines 242–248). -/
def NarrowPhase.handle_collision_object_added (interactions : InteractionGraph)
    (object : Nat) : InteractionGraph × Nat :=
  interactions.add_node object

/-- `NarrowPhase::handle_collision_object_removed` (narrow_phase.rs,
lines 251–268): clear every incident contact manifold, then remove the node. -/
def NarrowPhase.handle_collision_object_removed (interactions : InteractionGraph)
    (object : CollisionObject) : InteractionGraph × Option Nat :=
  let id := object.graph_index
  let clearEdge : Nat × Nat × Interaction → Nat × Nat × Interaction := fun e =>
    if e.1 = id ∨ e.2.1 = id then
      (e.1, e.2.1,
        match e.2.2 with
        | .Contact gen manifold => .Contact gen manifold.clear
        | .Proximity det => .Proximity det)
    else e
  let cleared := { interactions with edges := interactions.edges.map clearEdge }
  cleared.remove_node id

/-- AABBs, embedded as the term algebra of the operations the world performs
on them: `bounding_volume::aabb(shape, position)` (the shape's deformation
coordinates are part of the shape value), `BoundingVolume::loosen` and
`BoundingVolume::merge`. -/
inductive AABB where
  | of_shape (shape : Nat) (deformations : List ℚ) (position : Nat)
  | loosen (a : AABB) (amount : ℚ)
  | merge (a b : AABB)
deriving DecidableEq, Repr

/-- `bounding_volume::aabb(co.shape().as_ref(), position)` for a collision
object's shape at a given position. -/
def boundingVolumeAabb (co : CollisionObject) (position : Nat) : AABB :=
  .of_shape co.shape co.deformations position

/-- The operations the world issues to the broad phase (its trait-object
interface from `pipeline::broad_phase`). -/
inductive BroadPhaseOp where
  | create_proxy (aabb : AABB) (handle : Nat)
  | deferred_set_bounding_volume (proxy : Nat) (aabb : AABB)
  | deferred_recompute_all_proximities_with (proxy : Nat)
  | deferred_recompute_all_proximities
  | remove (proxies : List Nat)
deriving DecidableEq, Repr

/-- The broad phase, observed through the operations the world issues to it:
a fresh-proxy counter plus the log of issued operations. -/
structure BroadPhaseState where
  next_proxy : Nat
  ops : List BroadPhaseOp
deriving DecidableEq, Repr

/-- `BroadPhase::create_proxy`: returns the fresh proxy handle. -/
def BroadPhaseState.create_proxy (bp : BroadPhaseState) (aabb : AABB) (handle : Nat) :
    Nat × BroadPhaseState :=
  (bp.next_proxy, ⟨bp.next_proxy + 1, bp.ops ++ [.create_proxy aabb handle]⟩)

/-- Record a deferred broad-phase operation. -/
def BroadPhaseState.log (bp : BroadPhaseState) (op : BroadPhaseOp) : BroadPhaseState :=
  ⟨bp.next_proxy, bp.ops ++ [op]⟩

/-- `CollisionWorld<N, T>` (collision_world.rs): the orchestrator state. -/
structure CollisionWorld where
  objects : CollisionObjectSlab
  broad_phase : BroadPhaseState
  narrow_phase : NarrowPhase
  interactions : InteractionGraph
  timestamp : Nat
deriving DecidableEq, Repr

/-- `CollisionWorld::new` (collision_world.rs, lines 75–92).  The `margin`
argument only parameterises the DBVT broad phase, which is observed through
its operation log here. -/
def CollisionWorld.new (_margin : ℚ) : CollisionWorld :=
  { objects := ⟨[]⟩
    broad_phase := ⟨0, []⟩
    narrow_phase := { contact_events := [], proximity_events := [], id_allocator := ⟨0, []⟩ }
    interactions := ⟨[], []⟩
    timestamp := 0 }

/-- `CollisionWorld::add` (collision_world.rs, lines 95–128): insert the
object with the current timestamp, create its loosened-AABB proxy, create its
graph node, and wire the three back-references.  Returns the new world and
the fresh handle. -/
def CollisionWorld.add (w : CollisionWorld) (position : Nat) (shape : Nat)
    (collision_groups : Nat) (query_type : GeometricQueryType) (data : Nat) :
    CollisionWorld × Nat :=
  let co : CollisionObject :=
    { handle := 0, proxy_handle := 0, graph_index := 0
      position, deformations := [], shape, collision_groups, query_type
      timestamp := w.timestamp, data }
  let ins := w.objects.insert co
  let handle := ins.1
  let aabb := (boundingVolumeAabb co position).loosen query_type.query_limit
  let prx := w.broad_phase.create_proxy aabb handle
  let nd := NarrowPhase.handle_collision_object_added w.interactions handle
  let co := { co with handle := handle, proxy_handle := prx.1, graph_index := nd.2 }
  ({ w with
      objects := ins.2.set handle co
      broad_phase := prx.2
      interactions := nd.1 }, handle)

/-- The first loop of `CollisionWorld::remove` (collision_world.rs,
lines 154–166): for each handle, look the object up (panicking on a miss),
collect its proxy handle, run narrow-phase removal and transfer the graph
index to the object that now occupies the removed slot. -/
def removeLoop1 (objects : CollisionObjectSlab) (interactions : InteractionGraph)
    (proxy_handles : List Nat) :
    List Nat → Option (CollisionObjectSlab × InteractionGraph × List Nat)
  | [] => some (objects, interactions, proxy_handles)
  | h :: rest =>
    match objects.get h with
    | none => none
    | some co =>
      let graph_index := co.graph_index
      let proxy_handles := proxy_handles ++ [co.proxy_handle]
      let res := NarrowPhase.handle_collision_object_removed interactions co
      match res.2 with
      | some handle2 =>
        match objects.get handle2 with
        | none => none
        | some co2 =>
            removeLoop1 (objects.set handle2 { co2 with graph_index := graph_index })
              res.1 proxy_handles rest
      | none => removeLoop1 objects res.1 proxy_handles rest

/-- The second loop of `CollisionWorld::remove` (collision_world.rs,
lines 173–175): remove every handle from the slab (panicking on a vacant
slot, hence on a duplicate). -/
def removeLoop2 (objects : CollisionObjectSlab) :
    List Nat → Option CollisionObjectSlab
  | [] => some objects
  | h :: rest => (objects.remove h).bind fun res => removeLoop2 res.2 rest

/-- `CollisionWorld::remove` (collision_world.rs, lines 150–176). -/
def CollisionWorld.remove (w : CollisionWorld) (handles : List Nat) :
    Option CollisionWorld :=
  (removeLoop1 w.objects w.interactions [] handles).bind fun res =>
    let broad_phase := w.broad_phase.log (.remove res.2.2)
    (removeLoop2 res.1 handles).map fun objects =>
      { w with objects, broad_phase, interactions := res.2.1 }

/-- `CollisionWorld::set_position` (collision_world.rs, lines 179–190). -/
def CollisionWorld.set_position (w : CollisionWorld) (handle : Nat) (pos : Nat) :
    Option CollisionWorld :=
  match w.objects.get handle with
  | none => none
  | some co =>
    let co := { co with position := pos, timestamp := w.timestamp }
    let aabb := (boundingVolumeAabb co pos).loosen co.query_type.query_limit
    some { w with
      objects := w.objects.set handle co
      broad_phase := w.broad_phase.log (.deferred_set_bounding_volume co.proxy_handle aabb) }

/-- `CollisionWorld::set_position_with_prediction` (collision_world.rs,
lines 194–209). -/
def CollisionWorld.set_position_with_prediction (w : CollisionWorld) (handle : Nat)
    (pos : Nat) (predicted_pos : Nat) : Option CollisionWorld :=
  match w.objects.get handle with
  | none => none
  | some co =>
    let co := { co with position := pos, timestamp := w.timestamp }
    let aabb1 := (boundingVolumeAabb co pos).loosen co.query_type.query_limit
    let aabb2 := (boundingVolumeAabb co predicted_pos).loosen co.query_type.query_limit
    some { w with
      objects := w.objects.set handle co
      broad_phase := w.broad_phase.log
        (.deferred_set_bounding_volume co.proxy_handle (aabb1.merge aabb2)) }

/-- `CollisionWorld::set_query_type` (collision_world.rs, lines 213–220). -/
def CollisionWorld.set_query_type (w : CollisionWorld) (handle : Nat)
    (query_type : GeometricQueryType) : Option CollisionWorld :=
  match w.objects.get handle with
  | none => none
  | some co =>
    let co := { co with query_type := query_type }
    some { w with
      objects := w.objects.set handle co
      broad_phase := w.broad_phase.log
        (.deferred_recompute_all_proximities_with co.proxy_handle) }

/-- `CollisionWorld::set_shape` (collision_world.rs, lines 224–235): note the
`if let Some(co)` — an unknown handle is a silent no-op, not a panic. -/
def CollisionWorld.set_shape (w : CollisionWorld) (handle : Nat) (shape : Nat) :
    Option CollisionWorld :=
  match w.objects.get handle with
  | some co =>
    let co := { co with shape := shape }
    let aabb := (boundingVolumeAabb co co.position).loosen co.query_type.query_limit
    some { w with
      objects := w.objects.set handle co
      broad_phase := ((w.broad_phase.log
          (.deferred_set_bounding_volume co.proxy_handle aabb)).log
        (.deferred_recompute_all_proximities_with co.proxy_handle)) }
  | none => some w

/-- `CollisionWorld::set_deformations` (collision_world.rs, lines 238–254). -/
def CollisionWorld.set_deformations (w : CollisionWorld) (handle : Nat)
    (coords : List ℚ) : Option CollisionWorld :=
  match w.objects.get handle with
  | none => none
  | some co =>
    let co := { co with deformations := coords, timestamp := w.timestamp }
    let aabb := (boundingVolumeAabb co co.position).loosen co.query_type.query_limit
    some { w with
      objects := w.objects.set handle co
      broad_phase := w.broad_phase.log (.deferred_set_bounding_volume co.proxy_handle aabb) }

/-- `CollisionWorld::set_collision_groups` (collision_world.rs,
lines 339–345): note the `if let Some(co)` — an unknown handle is a silent
no-op, not a panic. -/
def CollisionWorld.set_collision_groups (w : CollisionWorld) (handle : Nat)
    (groups : Nat) : Option CollisionWorld :=
  match w.objects.get handle with
  | some co =>
    let co := { co with collision_groups := groups }
    some { w with
      objects := w.objects.set handle co
      broad_phase := w.broad_phase.log
        (.deferred_recompute_all_proximities_with co.proxy_handle) }
  | none => some w

/-- `CollisionWorld::perform_narrow_phase` (collision_world.rs,
lines 287–290): run the narrow-phase update at the current timestamp, then
increment the world timestamp. -/
def CollisionWorld.perform_narrow_phase (genv : GenEnv) (penv : ProxEnv)
    (w : CollisionWorld) : Option CollisionWorld :=
  (NarrowPhase.update genv penv w.narrow_phase w.interactions w.objects w.timestamp).map
    fun res =>
      { w with narrow_phase := res.1, interactions := res.2, timestamp := w.timestamp + 1 }

/-!
## Executions of world steps

The contact-event alternation claim quantifies over whole executions.  An
execution interleaves the world's lifecycle operations with broad-phase
interference signals (the `CollisionWorldInterferenceHandler` callbacks,
with arbitrary dispatcher behaviour) and narrow-phase steps (with arbitrary
detector behaviour).  Event pools are never cleared here, so the final
contact-event pool is the whole emission-ordered trace across all steps
(`clear_events` only truncates the pools; no emission depends on pool
contents).  Removals are issued one handle at a time.
-/

/-- One operation of an execution. -/
inductive WorldOp where
  | add (position shape collision_groups : Nat) (query_type : GeometricQueryType) (data : Nat)
  | signal (cdisp : ContactDispatcher) (pdisp : ProximityDispatcher)
      (h1 h2 : Nat) (started : Bool)
  | step (genv : GenEnv) (penv : ProxEnv)
  | removeObject (h : Nat)
  | set_position (h pos : Nat)
  | set_position_with_prediction (h pos ppos : Nat)
  | set_query_type (h : Nat) (q : GeometricQueryType)
  | set_shape (h s : Nat)
  | set_deformations (h : Nat) (coords : List ℚ)
  | set_collision_groups (h groups : Nat)

/-- Apply one operation to the world.  `signal` is the
`CollisionWorldInterferenceHandler::interference_started/stopped` callback
(collision_world.rs, lines 53–69); `step` is
`CollisionWorld::perform_narrow_phase`. -/
def applyOp (w : CollisionWorld) : WorldOp → Option CollisionWorld
  | .add pos shape groups qt data => some (w.add pos shape groups qt data).1
  | .signal cdisp pdisp h1 h2 started =>
      (NarrowPhase.handle_interaction cdisp pdisp w.narrow_phase w.interactions w.objects
          h1 h2 started).map
        fun res => { w with narrow_phase := res.1, interactions := res.2 }
  | .step genv penv => w.perform_narrow_phase genv penv
  | .removeObject h => w.remove [h]
  | .set_position h pos => w.set_position h pos
  | .set_position_with_prediction h pos ppos => w.set_position_with_prediction h pos ppos
  | .set_query_type h q => w.set_query_type h q
  | .set_shape h s => w.set_shape h s
  | .set_deformations h coords => w.set_deformations h coords
  | .set_collision_groups h groups => w.set_collision_groups h groups

/-- Run an execution; `none` as soon as any operation panics. -/
def exec (w : CollisionWorld) : List WorldOp → Option CollisionWorld
  | [] => some w
  | op :: rest => (applyOp w op).bind fun w1 => exec w1 rest

/-- The broad-phase contract (spec §4.1/§4.3): a pair whose handles are equal
is never signalled. -/
def signalsDistinct : List WorldOp → Prop
  | [] => True
  | .signal _ _ h1 h2 _ :: rest => h1 ≠ h2 ∧ signalsDistinct rest
  | _ :: rest => signalsDistinct rest

/-- An execution that never removes an object.  Removal silently discards a
non-empty manifold (no `Stopped` is emitted) and vacates the handle for
reuse, which is exactly what breaks cross-step alternation. -/
def noRemovals : List WorldOp → Prop
  | [] => True
  | .removeObject _ :: _ => False
  | _ :: rest => noRemovals rest

/-- A slab with no vacated slot: every insertion allocates a fresh handle.
This holds along any removal-free execution. -/
def noVacant (s : CollisionObjectSlab) : Prop :=
  ∀ x ∈ s.entries, x.isSome = true

/-- Whether a contact event concerns the unordered handle pair `{a, b}`. -/
def concernsPair (a b : Nat) : ContactEvent → Bool
  | .Started x y => (x == a && y == b) || (x == b && y == a)
  | .Stopped x y => (x == a && y == b) || (x == b && y == a)

/-- The subtrace of contact events concerning the pair `{a, b}`, in emission
order. -/
def pairEvents (a b : Nat) (events : List ContactEvent) : List ContactEvent :=
  events.filter (concernsPair a b)

/-- One step of the alternation automaton: the `Bool` is "the next event must
be a `Started`"; `none` is the reject state. -/
def altStep : Option Bool → ContactEvent → Option Bool
  | some true, .Started _ _ => some false
  | some false, .Stopped _ _ => some true
  | _, _ => none

/-- Run the alternation automaton over a trace, starting in the state that
expects a `Started`.  The result is `some _` exactly when the trace is a
strict `Started, Stopped, Started, …` alternation beginning with `Started`. -/
def altState (events : List ContactEvent) : Option Bool :=
  events.foldl altStep (some true)

/-- Whether an edge connects the graph nodes carrying the handles `a` and
`b` (as node weights of the given node list). -/
def edgeJoinsHandles (nodes : List Nat) (a b : Nat) (e : Nat × Nat × Interaction) : Bool :=
  (nodes[e.1]? == some a && nodes[e.2.1]? == some b) ||
    (nodes[e.1]? == some b && nodes[e.2.1]? == some a)

/-- Whether an interaction is a contact interaction with a non-empty
manifold. -/
def contactNonempty : Interaction → Bool
  | .Contact _ m => m.len != 0
  | .Proximity _ => false

/-- Whether the pair `{a, b}` currently has a contact edge with a non-empty
manifold. -/
def pairInContact (g : InteractionGraph) (a b : Nat) : Bool :=
  g.edges.any fun e => edgeJoinsHandles g.nodes a b e && contactNonempty e.2.2

/-- Both handles of a contact event are below the given bound (used to show
that a freshly allocated handle cannot occur in past events). -/
def eventBounded (n : Nat) : ContactEvent → Prop
  | .Started x y => x < n ∧ y < n
  | .Stopped x y => x < n ∧ y < n

/-- The execution invariant tying together the object slab, the accumulated
contact-event trace and the interaction graph:
* the three back-references are consistent (`backref`, `node_live`),
* edges are well-formed, self-loop-free and unique per node pair,
* every recorded event names handles the slab has already allocated,
* for every unordered pair of live objects, the pair's event subtrace is a
  strict alternation whose automaton state matches whether the pair
  currently has a non-empty contact manifold, and for every other pair the
  subtrace is a strict alternation. -/
structure Inv (objects : CollisionObjectSlab) (events : List ContactEvent)
    (g : InteractionGraph) : Prop where
  backref : ∀ h co, objects.get h = some co →
    co.handle = h ∧ g.nodes[co.graph_index]? = some h
  node_live : ∀ i h, g.nodes[i]? = some h →
    ∃ co, objects.get h = some co ∧ co.graph_index = i
  edge_bound : ∀ e ∈ g.edges,
    e.1 < g.nodes.length ∧ e.2.1 < g.nodes.length ∧ e.1 ≠ e.2.1
  edge_unique : g.edges.Pairwise fun e1 e2 => edgeBetween e1.1 e1.2.1 e2 = false
  ev_handles : ∀ ev ∈ events, eventBounded objects.entries.length ev
  alt_any : ∀ a b, a ≠ b → (altState (pairEvents a b events)).isSome = true
  alt_live : ∀ a b, a ≠ b → (objects.get a).isSome = true → (objects.get b).isSome = true →
    altState (pairEvents a b events) = some (!(pairInContact g a b))

/-- The execution invariant, read off a whole collision world. -/
def WorldInv (w : CollisionWorld) : Prop :=
  Inv w.objects w.narrow_phase.contact_events w.interactions

/-- The keys of an association list. -/
def keysOf (l : List (Nat × Bool)) : List Nat := l.map Prod.fst

/-- The non-null contact IDs of a manifold. -/
def manifoldIds (m : ContactManifold) : List Nat := m.contacts.filterMap Contact.id

/-- The non-null contact IDs held by an interaction. -/
def interactionIds : Interaction → List Nat
  | .Contact _ m => manifoldIds m
  | .Proximity _ => []

/-- The non-null contact IDs appearing in contacts of live manifolds of an
edge list. -/
def referencedIdsOf (edges : List (Nat × Nat × Interaction)) : List Nat :=
  (edges.map fun e => interactionIds e.2.2).flatten

/-- The non-null contact IDs appearing in contacts of live manifolds in the
interaction graph. -/
def referencedIds (g : InteractionGraph) : List Nat :=
  referencedIdsOf g.edges

/-- Sequential marking of a list of contact IDs (the flattened form of the
marking pass of `garbage_collect_ids`). -/
def markList (a : IdAlloc) : List Nat → Option IdAlloc
  | [] => some a
  | k :: rest => (a.set k true).bind fun a1 => markList a1 rest

/-- An example collision object for concrete witnesses. -/
def exObj (h gi : Nat) (qt : GeometricQueryType) : CollisionObject :=
  { handle := h, proxy_handle := h, graph_index := gi, position := h, deformations := [],
    shape := h, collision_groups := 0, query_type := qt, timestamp := 0, data := 0 }

/-- A slab holding two example objects with handles 0 and 1. -/
def exSlab2 : CollisionObjectSlab :=
  ⟨[some (exObj 0 0 (.Contacts 1 0)), some (exObj 1 1 (.Contacts 2 0))]⟩

/-- The two-node interaction graph with no edge. -/
def exGraphNoEdge : InteractionGraph := ⟨[0, 1], []⟩

/-- The two-node interaction graph with one contact edge holding a non-empty
manifold. -/
def exGraphEdge : InteractionGraph :=
  ⟨[0, 1], [(0, 1, .Contact 7 ⟨[⟨some 0, 0⟩], []⟩)]⟩

/-- A concrete world for exercising `set_query_type`: one object added at
timestamp 0, with the world timestamp then at 1 (as after one update). -/
def exampleWorldC1 : CollisionWorld :=
  { ((CollisionWorld.new 0).add 10 20 0 (.Contacts 1 0) 0).1 with timestamp := 1 }

/-- A concrete execution exercising the contact-event alternation: two
objects are added, their pair is signalled as interfering (creating a contact
edge), one narrow-phase step runs with a generator that reports one contact
(emitting `Started 0 1`), and the pair is then signalled as separated
(removing the edge and emitting `Stopped 0 1`). -/
def exOpsC9 : List WorldOp :=
  [ .add 3 7 0 (.Contacts 1 0) 0,
    .add 4 7 0 (.Contacts 1 0) 0,
    .signal (fun _ _ => some 0) (fun _ _ => none) 0 1 true,
    .step (fun _ _ _ _ _ _ _ => ([⟨none, 0⟩], 0)) (fun s p _ _ _ _ _ => (s, p)),
    .signal (fun _ _ => some 0) (fun _ _ => none) 0 1 false ]

/-- The world reached by `exOpsC9` from the fresh world. -/
def exWorldC9 : CollisionWorld :=
  (exec (CollisionWorld.new 0) exOpsC9).getD (CollisionWorld.new 0)

/-- An execution refuting cross-step alternation in the presence of removal:
objects 0 and 1 touch (emitting `Started 0 1`), object 1 is then removed
while its manifold is non-empty (removal emits no `Stopped` and vacates the
slot), a new object reclaims handle 1, and the pair touches again (emitting a
second `Started 0 1`). -/
def exOpsC9cx : List WorldOp :=
  [ .add 3 7 0 (.Contacts 1 0) 0,
    .add 4 7 0 (.Contacts 1 0) 0,
    .signal (fun _ _ => some 0) (fun _ _ => none) 0 1 true,
    .step (fun _ _ _ _ _ _ _ => ([⟨none, 0⟩], 0)) (fun s p _ _ _ _ _ => (s, p)),
    .removeObject 1,
    .add 4 7 0 (.Contacts 1 0) 0,
    .signal (fun _ _ => some 0) (fun _ _ => none) 0 1 true,
    .step (fun _ _ _ _ _ _ _ => ([⟨none, 0⟩], 0)) (fun s p _ _ _ _ _ => (s, p)) ]

/-- The world reached by `exOpsC9cx` from the fresh world. -/
def exWorldC9cx : CollisionWorld :=
  (exec (CollisionWorld.new 0) exOpsC9cx).getD (CollisionWorld.new 0)

/-!
## Theorems
-/

theorem allocIds_length (a : IdAlloc) (cs : List Contact) :
    (allocIds a cs).2.length = cs.length := by
  induction cs generalizing a with
  | nil => rfl
  | cons c rest ih => cases h : c.id <;> simp [allocIds, h, ih]

/-- C2: on a pair whose query types combine to a prediction,
`NarrowPhase::update_contact` pushes `ContactEvent::Started(a,b)` iff the
manifold was empty before the call and is non-empty after, pushes
`ContactEvent::Stopped(a,b)` iff it was non-empty before and empty after,
and pushes no contact event otherwise. -/
theorem update_contact_event_spec (genv : GenEnv) (np : NarrowPhase)
    (co1 co2 : CollisionObject) (detector : Nat) (manifold : ContactManifold)
    (h : (co1.query_type.contact_queries_to_prediction co2.query_type).isSome = true) :
    ∃ np' gen' m',
      np.update_contact genv co1 co2 detector manifold = some (np', gen', m') ∧
      np'.contact_events = np.contact_events ++
        (if manifold.len = 0 ∧ m'.len ≠ 0 then [ContactEvent.Started co1.handle co2.handle]
         else if manifold.len ≠ 0 ∧ m'.len = 0 then [ContactEvent.Stopped co1.handle co2.handle]
         else []) := by
  obtain ⟨p, hp⟩ := Option.isSome_iff_exists.mp h
  unfold NarrowPhase.update_contact
  rw [hp]
  refine ⟨_, _, _, rfl, ?_⟩
  simp only [ContactManifold.len, ContactManifold.save_cache_and_clear, allocIds_length]
  by_cases h0 : manifold.contacts.length = 0 <;>
    by_cases h1 : (genv detector co1.position co1.shape co2.position co2.shape p
        manifold.contacts).1.length = 0 <;>
      simp [h0, h1, ContactManifold.len, allocIds_length]

theorem update_contact_event_spec_witness :
    ((({ query_type := GeometricQueryType.Contacts 1 0, handle := 0, proxy_handle := 0,
          graph_index := 0, position := 0, deformations := [], shape := 0,
          collision_groups := 0, timestamp := 0, data := 0 } :
        CollisionObject).query_type.contact_queries_to_prediction
      (GeometricQueryType.Contacts 1 0)).isSome = true) ∧
    (∃ np' gen' m',
      NarrowPhase.update_contact (fun _ _ _ _ _ _ _ => ([⟨none, 0⟩], 0))
        { contact_events := [], proximity_events := [], id_allocator := ⟨0, []⟩ }
        { query_type := GeometricQueryType.Contacts 1 0, handle := 0, proxy_handle := 0,
          graph_index := 0, position := 0, deformations := [], shape := 0,
          collision_groups := 0, timestamp := 0, data := 0 }
        { query_type := GeometricQueryType.Contacts 1 0, handle := 1, proxy_handle := 0,
          graph_index := 0, position := 0, deformations := [], shape := 0,
          collision_groups := 0, timestamp := 0, data := 0 }
        7 ⟨[], []⟩ = some (np', gen', m') ∧
      np'.contact_events = ([] : List ContactEvent) ++
        (if (⟨[], []⟩ : ContactManifold).len = 0 ∧ m'.len ≠ 0 then
            [ContactEvent.Started 0 1]
         else if (⟨[], []⟩ : ContactManifold).len ≠ 0 ∧ m'.len = 0 then
            [ContactEvent.Stopped 0 1]
         else [])) :=
  ⟨rfl, update_contact_event_spec _ _ _ _ 7 _ rfl⟩

/-- C8: `NarrowPhase::update_contact` panics with `IncompatibleQueryTypes`
iff the two endpoints' query types cannot be combined into a contact
prediction, i.e. iff at least one endpoint's query type is not
`Contacts(..)`; with both endpoints `Contacts(..)` the failure branch is
unreachable. -/
theorem update_contact_incompatible_iff (genv : GenEnv) (np : NarrowPhase)
    (co1 co2 : CollisionObject) (detector : Nat) (manifold : ContactManifold) :
    np.update_contact genv co1 co2 detector manifold = none ↔
      ¬ (co1.query_type.is_contacts = true ∧ co2.query_type.is_contacts = true) := by
  cases hq1 : co1.query_type <;> cases hq2 : co2.query_type <;>
    simp [NarrowPhase.update_contact, GeometricQueryType.contact_queries_to_prediction,
      GeometricQueryType.is_contacts, hq1, hq2]

/-- C1 (amended): for a live handle, `CollisionWorld::set_query_type` updates
the object's query type and files a deferred full-proximity recomputation for
its proxy; it does not bump the object's timestamp, does not recompute the
AABB and does not file a deferred bounding-volume update. -/
theorem set_query_type_spec (w : CollisionWorld) (handle : Nat) (q : GeometricQueryType)
    (co : CollisionObject) (hco : w.objects.get handle = some co) :
    w.set_query_type handle q = some { w with
      objects := w.objects.set handle { co with query_type := q }
      broad_phase :=
        w.broad_phase.log (.deferred_recompute_all_proximities_with co.proxy_handle) } := by
  unfold CollisionWorld.set_query_type
  rw [hco]

/-- C1 (counterexample): on a concrete live object, `set_query_type` leaves
the object's timestamp at 0 even though the world timestamp is 1, and the
broad-phase log receives only the full proximity recomputation — no deferred
bounding-volume update is filed.  This falsifies the claimed timestamp bump
and AABB update. -/
theorem set_query_type_no_timestamp_bump :
    (exampleWorldC1.set_query_type 0 (GeometricQueryType.Proximity 1)).map
        (fun w => ((w.objects.get 0).map CollisionObject.timestamp, w.broad_phase.ops)) =
      some (some 0,
        [.create_proxy ((AABB.of_shape 20 [] 10).loosen 1) 0,
         .deferred_recompute_all_proximities_with 0]) ∧
    exampleWorldC1.timestamp = 1 := by
  exact ⟨by decide, rfl⟩

theorem set_query_type_spec_witness :
    exampleWorldC1.objects.get 0 = some
      ({ handle := 0, proxy_handle := 0, graph_index := 0, position := 10,
         deformations := [], shape := 20, collision_groups := 0,
         query_type := .Contacts 1 0, timestamp := 0, data := 0 } : CollisionObject) ∧
    exampleWorldC1.set_query_type 0 (GeometricQueryType.Proximity 1) =
      some { exampleWorldC1 with
        objects := exampleWorldC1.objects.set 0
          { handle := 0, proxy_handle := 0, graph_index := 0, position := 10,
            deformations := [], shape := 20, collision_groups := 0,
            query_type := GeometricQueryType.Proximity 1, timestamp := 0, data := 0 }
        broad_phase :=
          exampleWorldC1.broad_phase.log (.deferred_recompute_all_proximities_with 0) } :=
  ⟨by decide, set_query_type_spec exampleWorldC1 0 (GeometricQueryType.Proximity 1)
    { handle := 0, proxy_handle := 0, graph_index := 0, position := 10,
      deformations := [], shape := 20, collision_groups := 0,
      query_type := .Contacts 1 0, timestamp := 0, data := 0 } (by decide)⟩

/-- C4 (amended): on a handle absent from the slab, `set_position`,
`set_position_with_prediction`, `set_deformations` and `set_query_type`
panic, while `set_shape` and `set_collision_groups` are silent no-ops. -/
theorem setters_unknown_handle (w : CollisionWorld) (h : Nat)
    (hmiss : w.objects.get h = none) (pos ppos shape : Nat)
    (q : GeometricQueryType) (coords : List ℚ) (groups : Nat) :
    w.set_position h pos = none ∧
    w.set_position_with_prediction h pos ppos = none ∧
    w.set_deformations h coords = none ∧
    w.set_query_type h q = none ∧
    w.set_shape h shape = some w ∧
    w.set_collision_groups h groups = some w := by
  unfold CollisionWorld.set_position CollisionWorld.set_position_with_prediction
    CollisionWorld.set_deformations CollisionWorld.set_query_type
    CollisionWorld.set_shape CollisionWorld.set_collision_groups
  rw [hmiss]
  exact ⟨rfl, rfl, rfl, rfl, rfl, rfl⟩

/-- C4 (counterexample): with an unknown handle, `set_shape` and
`set_collision_groups` return without panicking (they are silent no-ops),
falsifying the claim that every setter panics on an unknown handle. -/
theorem set_shape_unknown_handle_no_panic :
    (CollisionWorld.new 0).set_shape 0 7 = some (CollisionWorld.new 0) ∧
    (CollisionWorld.new 0).set_collision_groups 0 3 = some (CollisionWorld.new 0) := by
  exact ⟨rfl, rfl⟩

theorem setters_unknown_handle_witness :
    (CollisionWorld.new 0).objects.get 5 = none ∧
    ((CollisionWorld.new 0).set_position 5 1 = none ∧
     (CollisionWorld.new 0).set_position_with_prediction 5 1 2 = none ∧
     (CollisionWorld.new 0).set_deformations 5 [1] = none ∧
     (CollisionWorld.new 0).set_query_type 5 (.Proximity 1) = none ∧
     (CollisionWorld.new 0).set_shape 5 7 = some (CollisionWorld.new 0) ∧
     (CollisionWorld.new 0).set_collision_groups 5 3 = some (CollisionWorld.new 0)) :=
  ⟨rfl, setters_unknown_handle (CollisionWorld.new 0) 5 rfl 1 2 7 (.Proximity 1) [1] 3⟩

theorem lookup_isSome_iff_mem_keys (l : List (Nat × Bool)) (k : Nat) :
    (l.lookup k).isSome = true ↔ k ∈ keysOf l := by
  induction l with
  | nil => simp [keysOf]
  | cons kv rest ih =>
    simp only [List.lookup, keysOf, List.map_cons, List.mem_cons]
    by_cases h : k = kv.1
    · simp [h]
    · have hbeq : (k == kv.1) = false := by simp [h]
      rw [hbeq]
      simp only [keysOf] at ih
      simp only [Option.isSome] at ih ⊢
      rw [ih]
      simp [h]

theorem keysOf_map_fst_preserving (l : List (Nat × Bool)) (f : Nat × Bool → Nat × Bool)
    (hf : ∀ kv, (f kv).1 = kv.1) : keysOf (l.map f) = keysOf l := by
  unfold keysOf
  rw [List.map_map]
  exact List.map_congr_left fun kv _ => hf kv

theorem set_some_slots (a : IdAlloc) (k : Nat) (v : Bool) (a1 : IdAlloc)
    (h : a.set k v = some a1) :
    a1.next = a.next ∧
      a1.slots = a.slots.map (fun kv => if kv.1 = k then (k, v) else kv) ∧
      k ∈ keysOf a.slots := by
  unfold IdAlloc.set at h
  split at h
  · rename_i hs
    cases h
    exact ⟨rfl, rfl, (lookup_isSome_iff_mem_keys _ _).mp hs⟩
  · cases h

theorem markList_some (ids : List Nat) (a a1 : IdAlloc) (h : markList a ids = some a1) :
    a1.next = a.next ∧
      a1.slots = a.slots.map (fun kv => if kv.1 ∈ ids then (kv.1, true) else kv) ∧
      ∀ k ∈ ids, k ∈ keysOf a.slots := by
  induction ids generalizing a with
  | nil =>
    cases h
    refine ⟨rfl, ?_, by simp⟩
    simp
  | cons k rest ih =>
    unfold markList at h
    cases hset : a.set k true with
    | none => rw [hset] at h; cases h
    | some amid =>
      rw [hset] at h
      obtain ⟨hnext0, hslots0, hkey0⟩ := set_some_slots a k true amid hset
      obtain ⟨hnext1, hslots1, hkeys1⟩ := ih amid h
      have hkeysmid : keysOf amid.slots = keysOf a.slots := by
        rw [hslots0]
        exact keysOf_map_fst_preserving _ _ (fun kv => by by_cases hkv : kv.1 = k <;> simp [hkv])
      refine ⟨hnext1.trans hnext0, ?_, ?_⟩
      · rw [hslots1, hslots0, List.map_map]
        refine List.map_congr_left ?_
        intro kv _
        by_cases hkv : kv.1 = k
        · subst hkv
          simp
        · by_cases hrest : kv.1 ∈ rest <;> simp [Function.comp, hkv, hrest]
      · intro j hj
        rcases List.mem_cons.mp hj with rfl | hjr
        · exact hkey0
        · have := hkeys1 j hjr
          rwa [hkeysmid] at this

theorem markContacts_eq (cs : List Contact) (a : IdAlloc) :
    markContacts cs a = markList a (cs.filterMap Contact.id) := by
  induction cs generalizing a with
  | nil => rfl
  | cons c rest ih =>
    cases hid : c.id with
    | none => simp [markContacts, hid, List.filterMap_cons, ih]
    | some k =>
      simp only [markContacts, hid, List.filterMap_cons, markList]
      cases a.set k true <;> simp [ih]

theorem markList_append (a : IdAlloc) (l1 l2 : List Nat) :
    markList a (l1 ++ l2) = (markList a l1).bind fun a1 => markList a1 l2 := by
  induction l1 generalizing a with
  | nil => rfl
  | cons k rest ih =>
    simp only [List.cons_append, markList]
    cases a.set k true <;> simp [ih]

theorem markEdges_eq (edges : List (Nat × Nat × Interaction)) (a : IdAlloc) :
    markEdges edges a = markList a (referencedIdsOf edges) := by
  induction edges generalizing a with
  | nil => rfl
  | cons e rest ih =>
    cases hw : e.2.2 with
    | Contact gen m =>
      have hids : referencedIdsOf (e :: rest) = manifoldIds m ++ referencedIdsOf rest := by
        simp [referencedIdsOf, interactionIds, hw]
      rw [hids, markList_append]
      simp only [markEdges, hw, markContacts_eq]
      have hmani : m.contacts.filterMap Contact.id = manifoldIds m := rfl
      rw [hmani]
      cases markList a (manifoldIds m) with
      | none => rfl
      | some amid => simp [ih]
    | Proximity det =>
      have hids : referencedIdsOf (e :: rest) = referencedIdsOf rest := by
        simp [referencedIdsOf, interactionIds, hw]
      rw [hids]
      simp only [markEdges, hw]
      exact ih a

theorem retain_contains_iff (a : IdAlloc) (k : Nat) :
    a.retain.contains k = true ↔ ∃ kv ∈ a.slots, kv.1 = k ∧ kv.2 = true := by
  have h1 : a.retain.contains k = true ↔
      k ∈ keysOf ((a.slots.filter fun kv => kv.2).map fun kv => (kv.1, false)) :=
    lookup_isSome_iff_mem_keys _ _
  rw [h1, keysOf_map_fst_preserving (a.slots.filter fun kv => kv.2)
    (fun kv => (kv.1, false)) (fun kv => rfl)]
  simp only [keysOf]
  constructor
  · intro h
    obtain ⟨kv, hkv, hfst⟩ := List.mem_map.mp h
    exact ⟨kv, (List.mem_filter.mp hkv).1, hfst, by simpa using (List.mem_filter.mp hkv).2⟩
  · intro ⟨kv, hkv, hfst, hval⟩
    exact List.mem_map.mpr ⟨kv, List.mem_filter.mpr ⟨hkv, by simp [hval]⟩, hfst⟩

/-- C3: after a successful `NarrowPhase::garbage_collect_ids` (starting from
an allocator whose marks are all cleared, as they are outside the collector),
the live slots of the contact-ID allocator are exactly the non-null contact
IDs appearing in contacts of live manifolds of the interaction graph: every
live slot is referenced by at least one live contact, and every non-null
contact ID of a live contact refers to a live slot. -/
theorem garbage_collect_ids_spec (np : NarrowPhase) (g : InteractionGraph)
    (np' : NarrowPhase)
    (hfalse : np.id_allocator.slots.all (fun kv => !kv.2) = true)
    (h : np.garbage_collect_ids g = some np') :
    ∀ k, np'.id_allocator.contains k = true ↔ k ∈ referencedIds g := by
  intro k
  unfold NarrowPhase.garbage_collect_ids at h
  rw [markEdges_eq] at h
  cases hmark : markList np.id_allocator (referencedIdsOf g.edges) with
  | none => rw [hmark] at h; cases h
  | some marked =>
    rw [hmark] at h
    cases h
    obtain ⟨hnext, hslots, hsub⟩ := markList_some _ _ _ hmark
    simp only [retain_contains_iff, hslots]
    constructor
    · intro hc
      obtain ⟨kv', hkv', hfst, hval⟩ := hc
      obtain ⟨kv, hkv, hmap⟩ := List.mem_map.mp hkv'
      by_cases hmem : kv.1 ∈ referencedIdsOf g.edges
      · rw [if_pos hmem] at hmap
        cases hmap
        exact hfst ▸ hmem
      · rw [if_neg hmem] at hmap
        subst hmap
        have := List.all_eq_true.mp hfalse kv hkv
        simp [hval] at this
    · intro hmem
      have hk : k ∈ keysOf np.id_allocator.slots := hsub k hmem
      obtain ⟨kv, hkv, hfst⟩ := List.mem_map.mp hk
      refine ⟨(kv.1, true), List.mem_map.mpr ⟨kv, hkv, ?_⟩, hfst, rfl⟩
      rw [if_pos (hfst ▸ hmem)]

theorem garbage_collect_ids_spec_witness :
    (({ contact_events := [], proximity_events := [],
        id_allocator := ⟨2, [(0, false), (1, false)]⟩ } :
          NarrowPhase).id_allocator.slots.all (fun kv => !kv.2) = true) ∧
    (({ contact_events := [], proximity_events := [],
        id_allocator := ⟨2, [(0, false), (1, false)]⟩ } :
          NarrowPhase).garbage_collect_ids
        ⟨[7, 8], [(0, 1, .Contact 3 ⟨[⟨some 0, 5⟩], []⟩)]⟩ =
      some { contact_events := [], proximity_events := [],
             id_allocator := ⟨2, [(0, false)]⟩ }) ∧
    (({ contact_events := [], proximity_events := [],
        id_allocator := ⟨2, [(0, false)]⟩ } :
          NarrowPhase).id_allocator.contains 0 = true ↔
      0 ∈ referencedIds ⟨[7, 8], [(0, 1, .Contact 3 ⟨[⟨some 0, 5⟩], []⟩)]⟩) :=
  ⟨by decide, by decide,
    garbage_collect_ids_spec
      { contact_events := [], proximity_events := [],
        id_allocator := ⟨2, [(0, false), (1, false)]⟩ }
      ⟨[7, 8], [(0, 1, .Contact 3 ⟨[⟨some 0, 5⟩], []⟩)]⟩
      { contact_events := [], proximity_events := [],
        id_allocator := ⟨2, [(0, false)]⟩ }
      (by decide) (by decide) 0⟩

theorem get_set_vacant (s : CollisionObjectSlab) (h h2 : Nat) (co : CollisionObject)
    (hvac : s.get h = none) (hne : h2 ≠ h) : (s.set h2 co).get h = none := by
  unfold CollisionObjectSlab.get CollisionObjectSlab.set at *
  rwa [List.getD_eq_getElem?_getD, List.getElem?_set_ne hne,
    ← List.getD_eq_getElem?_getD]

theorem get_set_none_self (s : CollisionObjectSlab) (h : Nat) :
    (⟨s.entries.set h none⟩ : CollisionObjectSlab).get h = none := by
  unfold CollisionObjectSlab.get
  rw [List.getD_eq_getElem?_getD]
  by_cases hlt : h < s.entries.length
  · simp [List.getElem?_set_self hlt]
  · rw [List.getElem?_eq_none (by simpa [Nat.not_lt] using hlt)]
    rfl

theorem get_set_none_vacant (s : CollisionObjectSlab) (h h2 : Nat)
    (hvac : s.get h = none) : (⟨s.entries.set h2 none⟩ : CollisionObjectSlab).get h = none := by
  by_cases hne : h2 = h
  · subst hne
    exact get_set_none_self s h2
  · unfold CollisionObjectSlab.get at *
    rwa [List.getD_eq_getElem?_getD, List.getElem?_set_ne hne,
      ← List.getD_eq_getElem?_getD]

theorem removeLoop1_vacant_none (handles : List Nat) (objects : CollisionObjectSlab)
    (g : InteractionGraph) (ph : List Nat) (h : Nat) (hmem : h ∈ handles)
    (hvac : objects.get h = none) :
    removeLoop1 objects g ph handles = none := by
  induction handles generalizing objects g ph with
  | nil => cases hmem
  | cons h0 rest ih =>
    unfold removeLoop1
    rcases List.mem_cons.mp hmem with rfl | hmemr
    · rw [hvac]
    · cases hget : objects.get h0 with
      | none => rfl
      | some co =>
        have hne0 : h0 ≠ h := fun he => by rw [he, hvac] at hget; cases hget
        cases hdisp : (NarrowPhase.handle_collision_object_removed g co).2 with
        | none =>
          simp only [hdisp]
          exact ih _ _ _ hmemr hvac
        | some handle2 =>
          simp only [hdisp]
          cases hget2 : objects.get handle2 with
          | none => rfl
          | some co2 =>
            have hne2 : handle2 ≠ h := fun he => by rw [he, hvac] at hget2; cases hget2
            exact ih _ _ _ hmemr (get_set_vacant _ _ _ _ hvac hne2)

theorem removeLoop2_vacant_none (handles : List Nat) (objects : CollisionObjectSlab)
    (h : Nat) (hmem : h ∈ handles) (hvac : objects.get h = none) :
    removeLoop2 objects handles = none := by
  induction handles generalizing objects with
  | nil => cases hmem
  | cons h0 rest ih =>
    unfold removeLoop2
    rcases List.mem_cons.mp hmem with rfl | hmemr
    · unfold CollisionObjectSlab.remove
      rw [hvac]
      rfl
    · unfold CollisionObjectSlab.remove
      cases hget : objects.get h0 with
      | none => rfl
      | some co => exact ih _ hmemr (get_set_none_vacant _ _ _ hvac)

theorem removeLoop2_dup_none (handles : List Nat) (objects : CollisionObjectSlab)
    (hdup : ¬ handles.Nodup) : removeLoop2 objects handles = none := by
  induction handles generalizing objects with
  | nil => exact absurd List.nodup_nil hdup
  | cons h0 rest ih =>
    rw [List.nodup_cons] at hdup
    push_neg at hdup
    unfold removeLoop2 CollisionObjectSlab.remove
    cases hget : objects.get h0 with
    | none => rfl
    | some co =>
      by_cases hmem : h0 ∈ rest
      · exact removeLoop2_vacant_none rest _ h0 hmem (get_set_none_self _ _)
      · exact ih _ (hdup hmem)

/-- C5: `CollisionWorld::remove` panics whenever the handle slice contains a
handle not present in the object slab, and whenever it contains the same
handle more than once. -/
theorem remove_panics (w : CollisionWorld) (handles : List Nat)
    (hbad : handles.any (fun h => (w.objects.get h).isNone) = true ∨ ¬ handles.Nodup) :
    w.remove handles = none := by
  unfold CollisionWorld.remove
  rcases hbad with hmiss | hdup
  · obtain ⟨h, hmem, hvac⟩ := List.any_eq_true.mp hmiss
    rw [removeLoop1_vacant_none handles _ _ _ h hmem (Option.isNone_iff_eq_none.mp hvac)]
    rfl
  · cases hl1 : removeLoop1 w.objects w.interactions [] handles with
    | none => rfl
    | some res =>
      show ((some res).bind fun res => _) = none
      rw [Option.some_bind, removeLoop2_dup_none handles res.1 hdup]
      rfl

theorem remove_panics_witness :
    ([5].any (fun h => ((CollisionWorld.new 0).objects.get h).isNone) = true ∨
      ¬ ([5] : List Nat).Nodup) ∧
    (CollisionWorld.new 0).remove [5] = none :=
  ⟨Or.inl (by decide), remove_panics (CollisionWorld.new 0) [5] (Or.inl (by decide))⟩

theorem find_edge_some (g : InteractionGraph) (i j eid : Nat)
    (h : g.find_edge i j = some eid) :
    ∃ e, g.edges[eid]? = some e ∧ edgeBetween i j e = true := by
  unfold InteractionGraph.find_edge at h
  obtain ⟨hlt, hp, _⟩ := List.findIdx?_eq_some_iff_getElem.mp h
  exact ⟨g.edges[eid], List.getElem?_eq_getElem hlt, hp⟩

theorem hi_started_cases (cdisp : ContactDispatcher)
    (pdisp : ProximityDispatcher) (np : NarrowPhase) (g : InteractionGraph)
    (objects : CollisionObjectSlab) (h1 h2 : Nat) (co1 co2 : CollisionObject)
    (hco1 : objects.get (min h1 h2) = some co1)
    (hco2 : objects.get (max h1 h2) = some co2)
    (hb1 : co1.graph_index < g.nodes.length)
    (hb2 : co2.graph_index < g.nodes.length) :
    ∃ g', NarrowPhase.handle_interaction cdisp pdisp np g objects h1 h2 true = some (np, g') ∧
      (g.contains_edge co1.graph_index co2.graph_index = true → g' = g) ∧
      (g.contains_edge co1.graph_index co2.graph_index = false →
        ((co1.query_type.is_contacts && co2.query_type.is_contacts) = true →
          (cdisp co1.shape co2.shape = none → g' = g) ∧
          (∀ d, cdisp co1.shape co2.shape = some d →
            g'.nodes = g.nodes ∧ g'.edges = g.edges ++
              [(co1.graph_index, co2.graph_index,
                Interaction.Contact d { contacts := [], cache := [] })])) ∧
        ((co1.query_type.is_contacts && co2.query_type.is_contacts) = false →
          (pdisp co1.shape co2.shape = none → g' = g) ∧
          (∀ d, pdisp co1.shape co2.shape = some d →
            g'.nodes = g.nodes ∧ g'.edges = g.edges ++
              [(co1.graph_index, co2.graph_index, Interaction.Proximity d)]))) := by
  by_cases hedge : g.contains_edge co1.graph_index co2.graph_index = true
  · refine ⟨g, ?_, fun _ => rfl, fun habs => absurd habs (by simp [hedge])⟩
    simp [NarrowPhase.handle_interaction, SortedPair.new, hco1, hco2, hedge]
  · have hne := hedge
    cases hq1 : co1.query_type with
    | Contacts l1 a1 =>
      cases hq2 : co2.query_type with
      | Contacts l2 a2 =>
        cases hd : cdisp co1.shape co2.shape with
        | none =>
          refine ⟨g, ?_, fun _ => rfl,
            fun _ => ⟨fun _ => ⟨fun _ => rfl, fun d hd2 => absurd hd2 (by simp)⟩,
              fun habs => absurd habs (by simp [GeometricQueryType.is_contacts])⟩⟩
          simp [NarrowPhase.handle_interaction, SortedPair.new, hco1, hco2, hedge,
            hq1, hq2, hd]
        | some d =>
          refine ⟨{ g with edges := g.edges ++
              [(co1.graph_index, co2.graph_index,
                Interaction.Contact d { contacts := [], cache := [] })] },
            ?_, fun habs => absurd habs hne,
            fun _ => ⟨fun _ => ⟨fun habs => absurd habs (by simp), fun d2 hd2 => ?_⟩,
              fun habs => absurd habs (by simp [GeometricQueryType.is_contacts])⟩⟩
          · simp [NarrowPhase.handle_interaction, SortedPair.new, hco1, hco2, hedge,
              hq1, hq2, hd, InteractionGraph.add_edge, hb1, hb2, init_manifold]
          · cases Option.some.inj hd2
            exact ⟨rfl, rfl⟩
      | Proximity m2 =>
        cases hd : pdisp co1.shape co2.shape with
        | none =>
          refine ⟨g, ?_, fun _ => rfl,
            fun _ => ⟨fun habs => absurd habs (by simp [GeometricQueryType.is_contacts]),
              fun _ => ⟨fun _ => rfl, fun d hd2 => absurd hd2 (by simp)⟩⟩⟩
          simp [NarrowPhase.handle_interaction, SortedPair.new, hco1, hco2, hedge,
            hq1, hq2, hd]
        | some d =>
          refine ⟨{ g with edges := g.edges ++
              [(co1.graph_index, co2.graph_index, Interaction.Proximity d)] },
            ?_, fun habs => absurd habs hne,
            fun _ => ⟨fun habs => absurd habs (by simp [GeometricQueryType.is_contacts]),
              fun _ => ⟨fun habs => absurd habs (by simp), fun d2 hd2 => ?_⟩⟩⟩
          · simp [NarrowPhase.handle_interaction, SortedPair.new, hco1, hco2, hedge,
              hq1, hq2, hd, InteractionGraph.add_edge, hb1, hb2]
          · cases Option.some.inj hd2
            exact ⟨rfl, rfl⟩
    | Proximity m1 =>
      cases hd : pdisp co1.shape co2.shape with
      | none =>
        refine ⟨g, ?_, fun _ => rfl,
          fun _ => ⟨fun habs => absurd habs (by simp [GeometricQueryType.is_contacts]),
            fun _ => ⟨fun _ => rfl, fun d hd2 => absurd hd2 (by simp)⟩⟩⟩
        cases hq2 : co2.query_type <;>
          simp [NarrowPhase.handle_interaction, SortedPair.new, hco1, hco2, hedge,
            hq1, hq2, hd]
      | some d =>
        refine ⟨{ g with edges := g.edges ++
            [(co1.graph_index, co2.graph_index, Interaction.Proximity d)] },
          ?_, fun habs => absurd habs hne,
          fun _ => ⟨fun habs => absurd habs (by simp [GeometricQueryType.is_contacts]),
            fun _ => ⟨fun habs => absurd habs (by simp), fun d2 hd2 => ?_⟩⟩⟩
        · cases hq2 : co2.query_type <;>
            simp [NarrowPhase.handle_interaction, SortedPair.new, hco1, hco2, hedge,
              hq1, hq2, hd, InteractionGraph.add_edge, hb1, hb2]
        · cases Option.some.inj hd2
          exact ⟨rfl, rfl⟩

theorem hi_stopped_cases (cdisp : ContactDispatcher)
    (pdisp : ProximityDispatcher) (np : NarrowPhase) (g : InteractionGraph)
    (objects : CollisionObjectSlab) (h1 h2 : Nat) (co1 co2 : CollisionObject)
    (hco1 : objects.get (min h1 h2) = some co1)
    (hco2 : objects.get (max h1 h2) = some co2) :
    ∃ np' g',
      NarrowPhase.handle_interaction cdisp pdisp np g objects h1 h2 false = some (np', g') ∧
      (g.find_edge co1.graph_index co2.graph_index = none → np' = np ∧ g' = g) ∧
      (∀ eid e, g.find_edge co1.graph_index co2.graph_index = some eid →
        g.edges[eid]? = some e →
        g'.nodes = g.nodes ∧ g'.edges = swapRemove g.edges eid ∧
        np' = (match e.2.2 with
          | Interaction.Contact _ m =>
              if m.len ≠ 0 then
                { np with contact_events :=
                    np.contact_events ++ [ContactEvent.Stopped co1.handle co2.handle] }
              else np
          | Interaction.Proximity det =>
              if det.prox ≠ Proximity.Disjoint then
                { np with proximity_events := np.proximity_events ++
                    [⟨co1.handle, co2.handle, det.prox, Proximity.Disjoint⟩] }
              else np)) := by
  cases hfe : g.find_edge co1.graph_index co2.graph_index with
  | none =>
    refine ⟨np, g, ?_, fun _ => ⟨rfl, rfl⟩, fun eid e habs => absurd habs (by simp)⟩
    simp [NarrowPhase.handle_interaction, SortedPair.new, hco1, hco2, hfe]
  | some eid =>
    obtain ⟨e, hget, _⟩ := find_edge_some g _ _ eid hfe
    have hrem : g.remove_edge eid =
        some ({ g with edges := swapRemove g.edges eid }, e.2.2) := by
      simp [InteractionGraph.remove_edge, hget]
    cases hw : e.2.2 with
    | Contact gen m =>
      by_cases hlen : m.len ≠ 0
      · refine ⟨{ np with contact_events :=
            np.contact_events ++ [ContactEvent.Stopped co1.handle co2.handle] },
          { g with edges := swapRemove g.edges eid }, ?_,
          fun habs => absurd habs (by simp), ?_⟩
        · simp [NarrowPhase.handle_interaction, SortedPair.new, hco1, hco2, hfe, hrem,
            hw, hlen]
        · intro eid' e' heid' hget'
          cases Option.some.inj heid'
          rw [hget] at hget'
          cases Option.some.inj hget'
          rw [hw]
          exact ⟨rfl, rfl, by simp [hlen]⟩
      · refine ⟨np, { g with edges := swapRemove g.edges eid }, ?_,
          fun habs => absurd habs (by simp), ?_⟩
        · simp [NarrowPhase.handle_interaction, SortedPair.new, hco1, hco2, hfe, hrem,
            hw, hlen]
        · intro eid' e' heid' hget'
          cases Option.some.inj heid'
          rw [hget] at hget'
          cases Option.some.inj hget'
          rw [hw]
          exact ⟨rfl, rfl, by simp [hlen]⟩
    | Proximity det =>
      by_cases hprox : det.prox ≠ Proximity.Disjoint
      · refine ⟨{ np with proximity_events := np.proximity_events ++
            [⟨co1.handle, co2.handle, det.prox, Proximity.Disjoint⟩] },
          { g with edges := swapRemove g.edges eid }, ?_,
          fun habs => absurd habs (by simp), ?_⟩
        · simp [NarrowPhase.handle_interaction, SortedPair.new, hco1, hco2, hfe, hrem,
            hw, hprox]
        · intro eid' e' heid' hget'
          cases Option.some.inj heid'
          rw [hget] at hget'
          cases Option.some.inj hget'
          rw [hw]
          exact ⟨rfl, rfl, by simp [hprox]⟩
      · refine ⟨np, { g with edges := swapRemove g.edges eid }, ?_,
          fun habs => absurd habs (by simp), ?_⟩
        · simp [NarrowPhase.handle_interaction, SortedPair.new, hco1, hco2, hfe, hrem,
            hw, hprox]
        · intro eid' e' heid' hget'
          cases Option.some.inj heid'
          rw [hget] at hget'
          cases Option.some.inj hget'
          rw [hw]
          exact ⟨rfl, rfl, by simp [hprox]⟩

/-- C6: `NarrowPhase::handle_interaction` with `started = true`: if an edge
already exists between the two endpoints' graph nodes, nothing changes; else
the contact dispatcher is consulted iff both endpoints are `Contacts(..)`
and the proximity dispatcher otherwise; a `none` from the dispatcher adds no
edge; a detector adds exactly one edge whose contact manifold (for a contact
edge) is empty.  The narrow phase itself — in particular both event pools —
is unchanged, so no `ContactEvent::Started` is pushed by this call. -/
theorem handle_interaction_started_spec (cdisp : ContactDispatcher)
    (pdisp : ProximityDispatcher) (np : NarrowPhase) (g : InteractionGraph)
    (objects : CollisionObjectSlab) (h1 h2 : Nat) (co1 co2 : CollisionObject)
    (hco1 : objects.get (min h1 h2) = some co1)
    (hco2 : objects.get (max h1 h2) = some co2)
    (hb1 : co1.graph_index < g.nodes.length)
    (hb2 : co2.graph_index < g.nodes.length) :
    ∃ g', NarrowPhase.handle_interaction cdisp pdisp np g objects h1 h2 true = some (np, g') ∧
      (g.contains_edge co1.graph_index co2.graph_index = true → g' = g) ∧
      (g.contains_edge co1.graph_index co2.graph_index = false →
        ((co1.query_type.is_contacts && co2.query_type.is_contacts) = true →
          (cdisp co1.shape co2.shape = none → g' = g) ∧
          (∀ d, cdisp co1.shape co2.shape = some d →
            g'.nodes = g.nodes ∧ g'.edges = g.edges ++
              [(co1.graph_index, co2.graph_index,
                Interaction.Contact d { contacts := [], cache := [] })])) ∧
        ((co1.query_type.is_contacts && co2.query_type.is_contacts) = false →
          (pdisp co1.shape co2.shape = none → g' = g) ∧
          (∀ d, pdisp co1.shape co2.shape = some d →
            g'.nodes = g.nodes ∧ g'.edges = g.edges ++
              [(co1.graph_index, co2.graph_index, Interaction.Proximity d)]))) :=
  hi_started_cases cdisp pdisp np g objects h1 h2 co1 co2 hco1 hco2 hb1 hb2

/-- C7: `NarrowPhase::handle_interaction` with `started = false`: if an edge
exists between the two endpoints' graph nodes it is removed;
`ContactEvent::Stopped` is pushed iff the removed edge was a contact edge
with a non-empty manifold; a proximity event transitioning from the
detector's last value to `Disjoint` is pushed iff the removed edge was a
proximity edge whose last value was not `Disjoint`; with no edge, nothing
changes. -/
theorem handle_interaction_stopped_spec (cdisp : ContactDispatcher)
    (pdisp : ProximityDispatcher) (np : NarrowPhase) (g : InteractionGraph)
    (objects : CollisionObjectSlab) (h1 h2 : Nat) (co1 co2 : CollisionObject)
    (hco1 : objects.get (min h1 h2) = some co1)
    (hco2 : objects.get (max h1 h2) = some co2) :
    ∃ np' g',
      NarrowPhase.handle_interaction cdisp pdisp np g objects h1 h2 false = some (np', g') ∧
      (g.find_edge co1.graph_index co2.graph_index = none → np' = np ∧ g' = g) ∧
      (∀ eid e, g.find_edge co1.graph_index co2.graph_index = some eid →
        g.edges[eid]? = some e →
        g'.nodes = g.nodes ∧ g'.edges = swapRemove g.edges eid ∧
        np' = (match e.2.2 with
          | Interaction.Contact _ m =>
              if m.len ≠ 0 then
                { np with contact_events :=
                    np.contact_events ++ [ContactEvent.Stopped co1.handle co2.handle] }
              else np
          | Interaction.Proximity det =>
              if det.prox ≠ Proximity.Disjoint then
                { np with proximity_events := np.proximity_events ++
                    [⟨co1.handle, co2.handle, det.prox, Proximity.Disjoint⟩] }
              else np)) :=
  hi_stopped_cases cdisp pdisp np g objects h1 h2 co1 co2 hco1 hco2

theorem handle_interaction_started_spec_witness :
    (exSlab2.get (min 1 0) = some (exObj 0 0 (.Contacts 1 0)) ∧
     exSlab2.get (max 1 0) = some (exObj 1 1 (.Contacts 2 0)) ∧
     (exObj 0 0 (.Contacts 1 0)).graph_index < exGraphNoEdge.nodes.length ∧
     (exObj 1 1 (.Contacts 2 0)).graph_index < exGraphNoEdge.nodes.length) ∧
    (∃ g', NarrowPhase.handle_interaction (fun _ _ => some 3) (fun _ _ => none)
        ⟨[], [], ⟨0, []⟩⟩ exGraphNoEdge exSlab2 1 0 true =
        some (⟨[], [], ⟨0, []⟩⟩, g')) :=
  ⟨⟨by decide, by decide, by decide, by decide⟩,
    (handle_interaction_started_spec (fun _ _ => some 3) (fun _ _ => none)
        ⟨[], [], ⟨0, []⟩⟩ exGraphNoEdge exSlab2 1 0
        (exObj 0 0 (.Contacts 1 0)) (exObj 1 1 (.Contacts 2 0))
        (by decide) (by decide) (by decide) (by decide)).elim
      fun g' h => ⟨g', h.1⟩⟩

theorem handle_interaction_stopped_spec_witness :
    (exSlab2.get (min 1 0) = some (exObj 0 0 (.Contacts 1 0)) ∧
     exSlab2.get (max 1 0) = some (exObj 1 1 (.Contacts 2 0))) ∧
    (∃ np' g', NarrowPhase.handle_interaction (fun _ _ => some 3) (fun _ _ => none)
        ⟨[], [], ⟨0, []⟩⟩ exGraphEdge exSlab2 1 0 false = some (np', g')) :=
  ⟨⟨by decide, by decide⟩,
    (handle_interaction_stopped_spec (fun _ _ => some 3) (fun _ _ => none)
        ⟨[], [], ⟨0, []⟩⟩ exGraphEdge exSlab2 1 0
        (exObj 0 0 (.Contacts 1 0)) (exObj 1 1 (.Contacts 2 0))
        (by decide) (by decide)).elim
      fun np' h => h.elim fun g' h2 => ⟨np', g', h2.1⟩⟩

/-- C10: `NarrowPhase::handle_interaction` is symmetric in its two handle
arguments: the pair is normalised to sorted order before any lookup,
mutation or event, so swapping the arguments yields the identical result. -/
theorem handle_interaction_symm (cdisp : ContactDispatcher) (pdisp : ProximityDispatcher)
    (np : NarrowPhase) (g : InteractionGraph) (objects : CollisionObjectSlab)
    (h1 h2 : Nat) (started : Bool) :
    NarrowPhase.handle_interaction cdisp pdisp np g objects h1 h2 started =
      NarrowPhase.handle_interaction cdisp pdisp np g objects h2 h1 started := by
  unfold NarrowPhase.handle_interaction
  rw [show SortedPair.new h1 h2 = SortedPair.new h2 h1 by
    simp [SortedPair.new, Nat.min_comm, Nat.max_comm]]

/-! ### Infrastructure for the event-alternation invariant (C9) -/

theorem set_perm_cons {α : Type} (l : List α) (i : Nat) (a : α) (hi : i < l.length) :
    (l.set i a).Perm (a :: l.eraseIdx i) := by
  induction l generalizing i with
  | nil => cases hi
  | cons x xs ih =>
    cases i with
    | zero => simp [List.eraseIdx]
    | succ i =>
      simp only [List.set_cons_succ, List.eraseIdx]
      exact ((ih i (by simpa using hi)).cons x).trans (List.Perm.swap a x _)

theorem swapRemove_perm {α : Type} (l : List α) (i : Nat) (hi : i < l.length) :
    (swapRemove l i).Perm (l.eraseIdx i) := by
  cases hlast : l.getLast? with
  | none =>
    rw [List.getLast?_eq_none_iff] at hlast
    subst hlast
    cases hi
  | some a =>
    obtain ⟨ys, rfl⟩ := List.getLast?_eq_some_iff.mp hlast
    unfold swapRemove
    rw [hlast]
    show (((ys ++ [a]).set i a).dropLast).Perm ((ys ++ [a]).eraseIdx i)
    by_cases hlt : i < ys.length
    · rw [List.set_append_left _ _ hlt, List.dropLast_concat,
        List.eraseIdx_append_of_lt_length hlt]
      exact (set_perm_cons ys i a hlt).trans (List.perm_append_singleton a _).symm
    · have hle : ys.length ≤ i := Nat.le_of_not_lt hlt
      have hi' : i = ys.length := by
        have := hi
        simp only [List.length_append, List.length_cons, List.length_nil] at this
        omega
      rw [List.set_append_right _ _ hle, List.eraseIdx_append_of_length_le hle, hi']
      simp

theorem perm_any_eq {α : Type} {l l' : List α} (h : l.Perm l') (p : α → Bool) :
    l.any p = l'.any p := by
  cases hq : l'.any p with
  | true =>
    obtain ⟨x, hx, hpx⟩ := List.any_eq_true.mp hq
    exact List.any_eq_true.mpr ⟨x, h.mem_iff.mpr hx, hpx⟩
  | false =>
    rw [List.any_eq_false] at hq ⊢
    intro x hx
    exact hq x (h.mem_iff.mp hx)

theorem any_eraseIdx_eq {α : Type} (l : List α) (i : Nat) (p : α → Bool) (hi : i < l.length) :
    l.any p = (p (l.get ⟨i, hi⟩) || (l.eraseIdx i).any p) := by
  induction l generalizing i with
  | nil => cases hi
  | cons x xs ih =>
    cases i with
    | zero => simp [List.eraseIdx]
    | succ i =>
      have hi' : i < xs.length := by simpa using hi
      simp only [List.any_cons, List.eraseIdx, ih i hi', List.get_cons_succ]
      cases p x <;> cases p (xs.get ⟨i, hi'⟩) <;> simp

theorem any_set_eq {α : Type} (l : List α) (i : Nat) (e' : α) (p : α → Bool)
    (hi : i < l.length) :
    (l.set i e').any p = (p e' || (l.eraseIdx i).any p) := by
  induction l generalizing i with
  | nil => cases hi
  | cons x xs ih =>
    cases i with
    | zero => simp [List.eraseIdx]
    | succ i =>
      have hi' : i < xs.length := by simpa using hi
      simp only [List.set_cons_succ, List.any_cons, List.eraseIdx, ih i hi']
      cases p x <;> cases p e' <;> simp

theorem altState_append_one (t : List ContactEvent) (e : ContactEvent) :
    altState (t ++ [e]) = altStep (altState t) e := by
  simp [altState, List.foldl_append]

theorem pairEvents_append (a b : Nat) (t1 t2 : List ContactEvent) :
    pairEvents a b (t1 ++ t2) = pairEvents a b t1 ++ pairEvents a b t2 := by
  simp [pairEvents, List.filter_append]

theorem pairEvents_snoc_concerns (a b : Nat) (t : List ContactEvent) (ev : ContactEvent)
    (h : concernsPair a b ev = true) :
    pairEvents a b (t ++ [ev]) = pairEvents a b t ++ [ev] := by
  simp [pairEvents, List.filter_append, h]

theorem pairEvents_snoc_other (a b : Nat) (t : List ContactEvent) (ev : ContactEvent)
    (h : concernsPair a b ev = false) :
    pairEvents a b (t ++ [ev]) = pairEvents a b t := by
  simp [pairEvents, List.filter_append, h]

theorem edgeBetween_symm (e e' : Nat × Nat × Interaction) :
    edgeBetween e.1 e.2.1 e' = edgeBetween e'.1 e'.2.1 e := by
  rcases e with ⟨i, j, w⟩
  rcases e' with ⟨i', j', w'⟩
  apply Bool.eq_iff_iff.mpr
  simp only [edgeBetween, Bool.or_eq_true, Bool.and_eq_true, beq_iff_eq]
  constructor <;> rintro (⟨h1, h2⟩ | ⟨h1, h2⟩) <;> subst h1 <;> subst h2 <;> simp

theorem edgeBetween_self (e : Nat × Nat × Interaction) :
    edgeBetween e.1 e.2.1 e = true := by
  simp [edgeBetween]

theorem slab_get_lt (s : CollisionObjectSlab) (h : Nat) (co : CollisionObject)
    (hget : s.get h = some co) : h < s.entries.length := by
  by_cases hlt : h < s.entries.length
  · exact hlt
  · unfold CollisionObjectSlab.get at hget
    rw [List.getD_eq_getElem?_getD, List.getElem?_eq_none (Nat.le_of_not_lt hlt)] at hget
    cases hget

theorem slab_get_set_self (s : CollisionObjectSlab) (h : Nat) (co : CollisionObject)
    (hlt : h < s.entries.length) : (s.set h co).get h = some co := by
  unfold CollisionObjectSlab.get CollisionObjectSlab.set
  rw [List.getD_eq_getElem?_getD, List.getElem?_set_self (by simpa using hlt)]
  rfl

theorem slab_get_set_ne (s : CollisionObjectSlab) (h h2 : Nat) (co : CollisionObject)
    (hne : h2 ≠ h) : (s.set h2 co).get h = s.get h := by
  unfold CollisionObjectSlab.get CollisionObjectSlab.set
  rw [List.getD_eq_getElem?_getD, List.getElem?_set_ne hne, ← List.getD_eq_getElem?_getD]

theorem slab_get_append_lt (s : CollisionObjectSlab) (x : Option CollisionObject) (h : Nat)
    (hlt : h < s.entries.length) :
    (⟨s.entries ++ [x]⟩ : CollisionObjectSlab).get h = s.get h := by
  unfold CollisionObjectSlab.get
  rw [List.getD_eq_getElem?_getD, List.getElem?_append_left hlt,
    ← List.getD_eq_getElem?_getD]

theorem slab_get_append_self (s : CollisionObjectSlab) (x : Option CollisionObject) :
    (⟨s.entries ++ [x]⟩ : CollisionObjectSlab).get s.entries.length = x := by
  unfold CollisionObjectSlab.get
  rw [List.getD_eq_getElem?_getD, List.getElem?_append_right (Nat.le_refl _)]
  simp

theorem slab_get_ge (s : CollisionObjectSlab) (h : Nat) (hge : s.entries.length ≤ h) :
    s.get h = none := by
  unfold CollisionObjectSlab.get
  rw [List.getD_eq_getElem?_getD, List.getElem?_eq_none hge]
  rfl

theorem Inv.weight_inj {objects : CollisionObjectSlab} {events : List ContactEvent}
    {g : InteractionGraph} (hinv : Inv objects events g) {i j h : Nat}
    (hi : g.nodes[i]? = some h) (hj : g.nodes[j]? = some h) : i = j := by
  obtain ⟨co, hco, hgi⟩ := hinv.node_live i h hi
  obtain ⟨co2, hco2, hgj⟩ := hinv.node_live j h hj
  rw [hco] at hco2
  cases Option.some.inj hco2
  rw [← hgi, ← hgj]

theorem edgeBetween_comm (i j : Nat) (e : Nat × Nat × Interaction) :
    edgeBetween i j e = edgeBetween j i e := by
  simp [edgeBetween, Bool.or_comm]

theorem edgeJoinsHandles_comm (nodes : List Nat) (a b : Nat) (e : Nat × Nat × Interaction) :
    edgeJoinsHandles nodes a b e = edgeJoinsHandles nodes b a e := by
  simp [edgeJoinsHandles, Bool.or_comm]

theorem edgeJoinsHandles_eq_of_endpoints (nodes : List Nat) (a b : Nat)
    (e e' : Nat × Nat × Interaction) (h1 : e'.1 = e.1) (h2 : e'.2.1 = e.2.1) :
    edgeJoinsHandles nodes a b e' = edgeJoinsHandles nodes a b e := by
  simp [edgeJoinsHandles, h1, h2]

theorem joins_eq_between {objects : CollisionObjectSlab} {events : List ContactEvent}
    {g : InteractionGraph} (hinv : Inv objects events g) (a b gi1 gi2 : Nat)
    (hga : g.nodes[gi1]? = some a) (hgb : g.nodes[gi2]? = some b)
    (e : Nat × Nat × Interaction) (_he : e ∈ g.edges) :
    edgeJoinsHandles g.nodes a b e = edgeBetween gi1 gi2 e := by
  apply Bool.eq_iff_iff.mpr
  simp only [edgeJoinsHandles, edgeBetween, Bool.or_eq_true, Bool.and_eq_true, beq_iff_eq]
  constructor
  · rintro (⟨h1, h2⟩ | ⟨h1, h2⟩)
    · exact Or.inl ⟨hinv.weight_inj h1 hga, hinv.weight_inj h2 hgb⟩
    · exact Or.inr ⟨hinv.weight_inj h1 hgb, hinv.weight_inj h2 hga⟩
  · rintro (⟨he1, he2⟩ | ⟨he1, he2⟩) <;> rw [he1, he2]
    · exact Or.inl ⟨hga, hgb⟩
    · exact Or.inr ⟨hgb, hga⟩

theorem between_eraseIdx_false (l : List (Nat × Nat × Interaction))
    (hu : l.Pairwise fun e1 e2 => edgeBetween e1.1 e1.2.1 e2 = false)
    (eid : Nat) (e : Nat × Nat × Interaction) (hget : l[eid]? = some e) :
    ∀ e' ∈ l.eraseIdx eid, edgeBetween e.1 e.2.1 e' = false := by
  intro e' he'
  obtain ⟨hlt, hel⟩ := List.getElem?_eq_some_iff.mp hget
  obtain ⟨j, hj, hje⟩ := List.mem_iff_getElem.mp he'
  rw [List.pairwise_iff_getElem] at hu
  by_cases hcase : j < eid
  · have hjl : j < l.length := Nat.lt_trans hcase hlt
    have hje2 : l[j] = e' := by
      rw [← List.getElem_eraseIdx_of_lt l eid j hj hcase]
      exact hje
    have hR := hu j eid hjl hlt hcase
    rw [hje2, hel] at hR
    rw [edgeBetween_symm]
    rcases e' with ⟨x, y, wgt⟩
    exact hR
  · have hjlen : j + 1 < l.length := by
      have := List.length_eraseIdx_of_lt (l := l) (i := eid) hlt
      omega
    have hje2 : l[j + 1] = e' := by
      rw [← List.getElem_eraseIdx_of_ge l eid j hj (Nat.le_of_not_lt hcase)]
      exact hje
    have hR := hu eid (j + 1) hlt hjlen (by omega)
    rw [hje2, hel] at hR
    exact hR

theorem pairInContact_of_edge {objects : CollisionObjectSlab} {events : List ContactEvent}
    {g : InteractionGraph} (hinv : Inv objects events g) (eid : Nat)
    (e : Nat × Nat × Interaction) (hget : g.edges[eid]? = some e) (a b : Nat)
    (hj : edgeJoinsHandles g.nodes a b e = true) :
    pairInContact g a b = contactNonempty e.2.2 ∧
    (g.edges.eraseIdx eid).any
      (fun e' => edgeJoinsHandles g.nodes a b e' && contactNonempty e'.2.2) = false := by
  obtain ⟨hlt, hel⟩ := List.getElem?_eq_some_iff.mp hget
  have hjoins : ∀ e' ∈ g.edges, edgeJoinsHandles g.nodes a b e' =
      edgeBetween e.1 e.2.1 e' := by
    intro e' he'
    have hjcases := hj
    simp only [edgeJoinsHandles, Bool.or_eq_true, Bool.and_eq_true, beq_iff_eq] at hjcases
    rcases hjcases with ⟨h1, h2⟩ | ⟨h1, h2⟩
    · exact joins_eq_between hinv a b e.1 e.2.1 h1 h2 e' he'
    · rw [edgeJoinsHandles_comm]
      exact joins_eq_between hinv b a e.1 e.2.1 h1 h2 e' he'
  have herase : (g.edges.eraseIdx eid).any
      (fun e' => edgeJoinsHandles g.nodes a b e' && contactNonempty e'.2.2) = false := by
    rw [List.any_eq_false]
    intro e' he'
    have hmem : e' ∈ g.edges := List.eraseIdx_subset _ _ he'
    rw [hjoins e' hmem,
      between_eraseIdx_false g.edges hinv.edge_unique eid e hget e' he']
    simp
  refine ⟨?_, herase⟩
  unfold pairInContact
  rw [any_eraseIdx_eq g.edges eid _ hlt, herase]
  have : g.edges.get ⟨eid, hlt⟩ = e := hel
  rw [this, hj]
  simp

theorem any_congr {α : Type} (l : List α) (p q : α → Bool)
    (h : ∀ x ∈ l, p x = q x) : l.any p = l.any q := by
  induction l with
  | nil => rfl
  | cons x xs ih =>
    simp only [List.any_cons, h x (List.mem_cons_self x xs)]
    rw [ih fun y hy => h y (List.mem_cons_of_mem x hy)]

theorem noVacant_findIdx (s : CollisionObjectSlab) (h : noVacant s) :
    s.entries.findIdx? Option.isNone = none := by
  rw [List.findIdx?_eq_none_iff]
  intro x hx
  have hs := h x hx
  cases x with
  | none => cases hs
  | some v => rfl

/-- On a slab without vacancies, insertion appends a fresh slot. -/
theorem insert_full (s : CollisionObjectSlab) (co : CollisionObject) (h : noVacant s) :
    s.insert co = (s.entries.length, ⟨s.entries ++ [some co]⟩) := by
  unfold CollisionObjectSlab.insert
  rw [noVacant_findIdx s h]

theorem add_spec (w : CollisionWorld) (pos shape groups : Nat) (qt : GeometricQueryType)
    (data : Nat) (hfull : noVacant w.objects) :
    (w.add pos shape groups qt data).1.objects =
      ⟨w.objects.entries ++ [some
        { handle := w.objects.entries.length, proxy_handle := w.broad_phase.next_proxy,
          graph_index := w.interactions.nodes.length, position := pos, deformations := [],
          shape := shape, collision_groups := groups, query_type := qt,
          timestamp := w.timestamp, data := data }]⟩ ∧
    (w.add pos shape groups qt data).1.interactions =
      ⟨w.interactions.nodes ++ [w.objects.entries.length], w.interactions.edges⟩ ∧
    (w.add pos shape groups qt data).1.narrow_phase = w.narrow_phase ∧
    (w.add pos shape groups qt data).2 = w.objects.entries.length := by
  have hins := insert_full w.objects
    { handle := 0, proxy_handle := 0, graph_index := 0, position := pos, deformations := [],
      shape := shape, collision_groups := groups, query_type := qt,
      timestamp := w.timestamp, data := data } hfull
  unfold CollisionWorld.add CollisionObjectSlab.set
    NarrowPhase.handle_collision_object_added InteractionGraph.add_node
    BroadPhaseState.create_proxy
  dsimp only
  rw [hins]
  refine ⟨?_, rfl, rfl, rfl⟩
  simp only []
  congr 1
  rw [List.set_append_right _ _ (Nat.le_refl _)]
  simp

/-- A removal-free world mutation step keeps the slab vacancy-free. -/
theorem noVacant_set (s : CollisionObjectSlab) (h : Nat) (co : CollisionObject)
    (hv : noVacant s) : noVacant (s.set h co) := by
  intro x hx
  rcases List.mem_or_eq_of_mem_set hx with hmem | rfl
  · exact hv x hmem
  · rfl

theorem noVacant_add (w : CollisionWorld) (pos shape groups : Nat)
    (qt : GeometricQueryType) (data : Nat) (hv : noVacant w.objects) :
    noVacant (w.add pos shape groups qt data).1.objects := by
  obtain ⟨hobj, _, _, _⟩ := add_spec w pos shape groups qt data hv
  rw [hobj]
  intro x hx
  rcases List.mem_append.mp hx with hmem | hmem
  · exact hv x hmem
  · rw [List.mem_singleton.mp hmem]
    rfl

theorem eventBounded_mono {n m : Nat} (hnm : n ≤ m) (ev : ContactEvent)
    (h : eventBounded n ev) : eventBounded m ev := by
  cases ev with
  | Started x y => exact ⟨Nat.lt_of_lt_of_le h.1 hnm, Nat.lt_of_lt_of_le h.2 hnm⟩
  | Stopped x y => exact ⟨Nat.lt_of_lt_of_le h.1 hnm, Nat.lt_of_lt_of_le h.2 hnm⟩

theorem concernsPair_bounded_false {n : Nat} (ev : ContactEvent)
    (hb : eventBounded n ev) (a b : Nat) (ha : n ≤ a) :
    concernsPair a b ev = false := by
  cases ev with
  | Started x y =>
    have hx : x ≠ a := Nat.ne_of_lt (Nat.lt_of_lt_of_le hb.1 ha)
    have hy : y ≠ a := Nat.ne_of_lt (Nat.lt_of_lt_of_le hb.2 ha)
    simp [concernsPair, hx, hy]
  | Stopped x y =>
    have hx : x ≠ a := Nat.ne_of_lt (Nat.lt_of_lt_of_le hb.1 ha)
    have hy : y ≠ a := Nat.ne_of_lt (Nat.lt_of_lt_of_le hb.2 ha)
    simp [concernsPair, hx, hy]

theorem concernsPair_comm (a b : Nat) (ev : ContactEvent) :
    concernsPair a b ev = concernsPair b a ev := by
  cases ev <;> simp [concernsPair, Bool.or_comm]

theorem pairEvents_comm (a b : Nat) (t : List ContactEvent) :
    pairEvents a b t = pairEvents b a t := by
  unfold pairEvents
  congr 1
  funext ev
  exact concernsPair_comm a b ev

theorem pairInContact_comm (g : InteractionGraph) (a b : Nat) :
    pairInContact g a b = pairInContact g b a := by
  unfold pairInContact
  apply any_congr
  intro e _
  rw [edgeJoinsHandles_comm]

/-- The weight at a valid edge endpoint is a live handle strictly below the
slab length. -/
theorem endpoint_weight_lt {objects : CollisionObjectSlab} {events : List ContactEvent}
    {g : InteractionGraph} (hinv : Inv objects events g) (i : Nat)
    (hi : i < g.nodes.length) :
    ∃ h, g.nodes[i]? = some h ∧ h < objects.entries.length := by
  refine ⟨g.nodes[i], List.getElem?_eq_getElem hi, ?_⟩
  obtain ⟨co, hco, _⟩ := hinv.node_live i g.nodes[i] (List.getElem?_eq_getElem hi)
  exact slab_get_lt _ _ _ hco

/-- Appending a fresh object (with correctly wired back-references) and its
graph node preserves the invariant: the generic form of `CollisionWorld::add`. -/
theorem inv_append (objects : CollisionObjectSlab) (events : List ContactEvent)
    (g : InteractionGraph) (hinv : Inv objects events g) (coF : CollisionObject)
    (hh : coF.handle = objects.entries.length)
    (hgi : coF.graph_index = g.nodes.length) :
    Inv ⟨objects.entries ++ [some coF]⟩ events ⟨g.nodes ++ [coF.handle], g.edges⟩ := by
  have hjfresh : ∀ a b, edgeJoinsHandles (g.nodes ++ [coF.handle]) a b =
      fun e => edgeJoinsHandles (g.nodes ++ [coF.handle]) a b e := fun _ _ => rfl
  constructor
  · -- backref
    intro h co hget
    rcases Nat.lt_trichotomy h objects.entries.length with hlt | heq | hgt
    · rw [slab_get_append_lt _ _ h hlt] at hget
      obtain ⟨hhan, hgiw⟩ := hinv.backref h co hget
      have hgilt : co.graph_index < g.nodes.length := by
        by_contra hge
        rw [List.getElem?_eq_none (Nat.le_of_not_lt hge)] at hgiw
        cases hgiw
      refine ⟨hhan, ?_⟩
      rw [List.getElem?_append_left hgilt]
      exact hgiw
    · subst heq
      rw [slab_get_append_self] at hget
      cases Option.some.inj hget
      refine ⟨hh, ?_⟩
      rw [hgi, List.getElem?_append_right (Nat.le_refl _)]
      simp [hh]
    · rw [slab_get_ge _ _ (by simp; omega)] at hget
      cases hget
  · -- node_live
    intro i h hget
    rcases Nat.lt_trichotomy i g.nodes.length with hlt | heq | hgt
    · rw [List.getElem?_append_left hlt] at hget
      obtain ⟨co, hco, hgiw⟩ := hinv.node_live i h hget
      have hhlt := slab_get_lt _ _ _ hco
      exact ⟨co, by rw [slab_get_append_lt _ _ h hhlt]; exact hco, hgiw⟩
    · subst heq
      rw [List.getElem?_append_right (Nat.le_refl _)] at hget
      simp only [Nat.sub_self, List.getElem?_cons_zero] at hget
      cases Option.some.inj hget
      refine ⟨coF, ?_, hgi⟩
      rw [hh]
      exact slab_get_append_self _ _
    · rw [List.getElem?_eq_none (by simp; omega)] at hget
      cases hget
  · -- edge_bound
    intro e he
    obtain ⟨hb1, hb2, hne⟩ := hinv.edge_bound e he
    simp only [List.length_append, List.length_cons, List.length_nil]
    exact ⟨by omega, by omega, hne⟩
  · -- edge_unique
    exact hinv.edge_unique
  · -- ev_handles
    intro ev hev
    refine eventBounded_mono ?_ ev (hinv.ev_handles ev hev)
    simp
  · -- alt_any
    intro a b hne
    exact hinv.alt_any a b hne
  · -- alt_live
    intro a b hne hga hgb
    have hbound : ∀ x, ((⟨objects.entries ++ [some coF]⟩ :
        CollisionObjectSlab).get x).isSome = true → x ≤ objects.entries.length := by
      intro x hx
      obtain ⟨co, hco⟩ := Option.isSome_iff_exists.mp hx
      have := slab_get_lt _ _ _ hco
      simp only [List.length_append, List.length_cons, List.length_nil] at this
      omega
    have hpic : pairInContact ⟨g.nodes ++ [coF.handle], g.edges⟩ a b =
        pairInContact g a b := by
      unfold pairInContact
      apply any_congr
      intro e he
      obtain ⟨hb1, hb2, _⟩ := hinv.edge_bound e he
      have h1 : (g.nodes ++ [coF.handle])[e.1]? = g.nodes[e.1]? :=
        List.getElem?_append_left hb1
      have h2 : (g.nodes ++ [coF.handle])[e.2.1]? = g.nodes[e.2.1]? :=
        List.getElem?_append_left hb2
      simp only [edgeJoinsHandles, h1, h2]
    rw [hpic]
    have hfreshcase : ∀ x, x < objects.entries.length →
        altState (pairEvents x objects.entries.length events) =
          some (!(pairInContact g x objects.entries.length)) := by
      intro x _
      have hnojoin : ∀ e ∈ g.edges,
          edgeJoinsHandles g.nodes x objects.entries.length e = false := by
        intro e he
        obtain ⟨hb1, hb2, _⟩ := hinv.edge_bound e he
        obtain ⟨wt1, hw1, hlt1⟩ := endpoint_weight_lt hinv e.1 hb1
        obtain ⟨wt2, hw2, hlt2⟩ := endpoint_weight_lt hinv e.2.1 hb2
        have hne1 : wt1 ≠ objects.entries.length := Nat.ne_of_lt hlt1
        have hne2 : wt2 ≠ objects.entries.length := Nat.ne_of_lt hlt2
        simp [edgeJoinsHandles, hw1, hw2, hne1, hne2]
      have hpic0 : pairInContact g x objects.entries.length = false := by
        unfold pairInContact
        rw [List.any_eq_false]
        intro e he
        simp [hnojoin e he]
      have hempty : pairEvents x objects.entries.length events = [] := by
        rw [pairEvents_comm]
        unfold pairEvents
        rw [List.filter_eq_nil_iff]
        intro ev hev
        rw [concernsPair_bounded_false ev (hinv.ev_handles ev hev) _ x (Nat.le_refl _)]
        simp
      rw [hempty, hpic0]
      rfl
    rcases Nat.lt_or_ge a objects.entries.length with hla | hga'
    · rcases Nat.lt_or_ge b objects.entries.length with hlb | hgb'
      · rw [slab_get_append_lt _ _ a hla] at hga
        rw [slab_get_append_lt _ _ b hlb] at hgb
        exact hinv.alt_live a b hne hga hgb
      · have hbL : b = objects.entries.length := Nat.le_antisymm (hbound b hgb) hgb'
        subst hbL
        exact hfreshcase a hla
    · have haL : a = objects.entries.length := Nat.le_antisymm (hbound a hga) hga'
      subst haL
      have hlb : b < objects.entries.length := by
        have := hbound b hgb
        omega
      rw [pairEvents_comm, pairInContact_comm]
      exact hfreshcase b hlb

theorem inv_add (w : CollisionWorld) (pos shape groups : Nat) (qt : GeometricQueryType)
    (data : Nat) (hinv : WorldInv w) (hfull : noVacant w.objects) :
    WorldInv (w.add pos shape groups qt data).1 := by
  obtain ⟨hobj, hint, hnp, _⟩ := add_spec w pos shape groups qt data hfull
  unfold WorldInv at *
  rw [hobj, hint, hnp]
  exact inv_append w.objects w.narrow_phase.contact_events w.interactions hinv _ rfl rfl

/-- Overwriting a live object with one that keeps its handle and graph index
(the slab effect of every `set_*` mutator) preserves the invariant. -/
theorem inv_set_attr (objects : CollisionObjectSlab) (events : List ContactEvent)
    (g : InteractionGraph) (hinv : Inv objects events g) (h : Nat)
    (co co' : CollisionObject) (hco : objects.get h = some co)
    (hh : co'.handle = co.handle) (hgi : co'.graph_index = co.graph_index) :
    Inv (objects.set h co') events g := by
  have hhlt := slab_get_lt _ _ _ hco
  have hget' : ∀ x, (objects.set h co').get x =
      if x = h then some co' else objects.get x := by
    intro x
    by_cases hx : x = h
    · subst hx
      rw [if_pos rfl]
      exact slab_get_set_self _ _ _ hhlt
    · rw [if_neg hx]
      exact slab_get_set_ne _ _ _ _ (fun he => hx he.symm)
  constructor
  · intro x cox hgetx
    rw [hget'] at hgetx
    by_cases hx : x = h
    · subst hx
      rw [if_pos rfl] at hgetx
      cases Option.some.inj hgetx
      obtain ⟨hhan, hgiw⟩ := hinv.backref x co hco
      exact ⟨hh.trans hhan, hgi ▸ hgiw⟩
    · rw [if_neg hx] at hgetx
      exact hinv.backref x cox hgetx
  · intro i hx hnode
    obtain ⟨co2, hco2, hgi2⟩ := hinv.node_live i hx hnode
    by_cases hxh : hx = h
    · subst hxh
      rw [hco] at hco2
      cases Option.some.inj hco2
      refine ⟨co', ?_, hgi.trans hgi2⟩
      rw [hget', if_pos rfl]
    · exact ⟨co2, by rw [hget', if_neg hxh]; exact hco2, hgi2⟩
  · exact hinv.edge_bound
  · exact hinv.edge_unique
  · intro ev hev
    have := hinv.ev_handles ev hev
    unfold CollisionObjectSlab.set
    simpa [List.length_set] using this
  · exact hinv.alt_any
  · intro a b hne hga hgb
    rw [hget'] at hga hgb
    refine hinv.alt_live a b hne ?_ ?_
    · by_cases hxa : a = h
      · subst hxa
        rw [hco]
        rfl
      · rwa [if_neg hxa] at hga
    · by_cases hxb : b = h
      · subst hxb
        rw [hco]
        rfl
      · rwa [if_neg hxb] at hgb

theorem inv_set_position (w : CollisionWorld) (h pos : Nat) (w' : CollisionWorld)
    (hinv : WorldInv w) (hres : w.set_position h pos = some w') : WorldInv w' := by
  unfold CollisionWorld.set_position at hres
  cases hco : w.objects.get h with
  | none => rw [hco] at hres; cases hres
  | some co =>
    rw [hco] at hres
    cases Option.some.inj hres
    exact inv_set_attr _ _ _ hinv h co _ hco rfl rfl

theorem inv_set_position_with_prediction (w : CollisionWorld) (h pos ppos : Nat)
    (w' : CollisionWorld) (hinv : WorldInv w)
    (hres : w.set_position_with_prediction h pos ppos = some w') : WorldInv w' := by
  unfold CollisionWorld.set_position_with_prediction at hres
  cases hco : w.objects.get h with
  | none => rw [hco] at hres; cases hres
  | some co =>
    rw [hco] at hres
    cases Option.some.inj hres
    exact inv_set_attr _ _ _ hinv h co _ hco rfl rfl

theorem inv_set_deformations (w : CollisionWorld) (h : Nat) (coords : List ℚ)
    (w' : CollisionWorld) (hinv : WorldInv w)
    (hres : w.set_deformations h coords = some w') : WorldInv w' := by
  unfold CollisionWorld.set_deformations at hres
  cases hco : w.objects.get h with
  | none => rw [hco] at hres; cases hres
  | some co =>
    rw [hco] at hres
    cases Option.some.inj hres
    exact inv_set_attr _ _ _ hinv h co _ hco rfl rfl

theorem inv_set_query_type (w : CollisionWorld) (h : Nat) (q : GeometricQueryType)
    (w' : CollisionWorld) (hinv : WorldInv w)
    (hres : w.set_query_type h q = some w') : WorldInv w' := by
  unfold CollisionWorld.set_query_type at hres
  cases hco : w.objects.get h with
  | none => rw [hco] at hres; cases hres
  | some co =>
    rw [hco] at hres
    cases Option.some.inj hres
    exact inv_set_attr _ _ _ hinv h co _ hco rfl rfl

theorem inv_set_shape (w : CollisionWorld) (h s : Nat) (w' : CollisionWorld)
    (hinv : WorldInv w) (hres : w.set_shape h s = some w') : WorldInv w' := by
  unfold CollisionWorld.set_shape at hres
  cases hco : w.objects.get h with
  | none =>
    rw [hco] at hres
    cases Option.some.inj hres
    exact hinv
  | some co =>
    rw [hco] at hres
    cases Option.some.inj hres
    exact inv_set_attr _ _ _ hinv h co _ hco rfl rfl

theorem inv_set_collision_groups (w : CollisionWorld) (h groups : Nat)
    (w' : CollisionWorld) (hinv : WorldInv w)
    (hres : w.set_collision_groups h groups = some w') : WorldInv w' := by
  unfold CollisionWorld.set_collision_groups at hres
  cases hco : w.objects.get h with
  | none =>
    rw [hco] at hres
    cases Option.some.inj hres
    exact hinv
  | some co =>
    rw [hco] at hres
    cases Option.some.inj hres
    exact inv_set_attr _ _ _ hinv h co _ hco rfl rfl

theorem edgeBetween_false_symm {e1 e2 : Nat × Nat × Interaction}
    (h : edgeBetween e1.1 e1.2.1 e2 = false) : edgeBetween e2.1 e2.2.1 e1 = false := by
  rw [edgeBetween_symm]
  exact h

/-- The weights joined by an edge are unique: if an edge joins both `{a, b}`
and `{a0, b0}`, the two unordered pairs coincide. -/
theorem joins_pair_eq (nodes : List Nat) (a b a0 b0 : Nat) (e : Nat × Nat × Interaction)
    (hj : edgeJoinsHandles nodes a0 b0 e = true)
    (hq : edgeJoinsHandles nodes a b e = true) :
    (a = a0 ∧ b = b0) ∨ (a = b0 ∧ b = a0) := by
  simp only [edgeJoinsHandles, Bool.or_eq_true, Bool.and_eq_true, beq_iff_eq] at hj hq
  rcases hj with ⟨hj1, hj2⟩ | ⟨hj1, hj2⟩ <;> rcases hq with ⟨hq1, hq2⟩ | ⟨hq1, hq2⟩
  · exact Or.inl ⟨Option.some.inj (hq1.symm.trans hj1),
      Option.some.inj (hq2.symm.trans hj2)⟩
  · exact Or.inr ⟨Option.some.inj (hq2.symm.trans hj2),
      Option.some.inj (hq1.symm.trans hj1)⟩
  · exact Or.inr ⟨Option.some.inj (hq1.symm.trans hj1),
      Option.some.inj (hq2.symm.trans hj2)⟩
  · exact Or.inl ⟨Option.some.inj (hq2.symm.trans hj2),
      Option.some.inj (hq1.symm.trans hj1)⟩

/-- Removing the edge at `eid` (with the swap-removal policy) and appending
the `Stopped` event exactly when the removed edge was a non-empty contact
edge preserves the invariant; this covers the `stopped` branch of
`handle_interaction`. -/
theorem inv_remove_edge (objects : CollisionObjectSlab) (events : List ContactEvent)
    (g : InteractionGraph) (hinv : Inv objects events g) (eid : Nat)
    (e : Nat × Nat × Interaction) (hget : g.edges[eid]? = some e)
    (a0 b0 : Nat) (hj : edgeJoinsHandles g.nodes a0 b0 e = true) (hne0 : a0 ≠ b0)
    (ha0 : (objects.get a0).isSome = true) (hb0 : (objects.get b0).isSome = true) :
    Inv objects (events ++ (if contactNonempty e.2.2 = true then
        [ContactEvent.Stopped a0 b0] else [])) ⟨g.nodes, swapRemove g.edges eid⟩ := by
  obtain ⟨hlt, hel⟩ := List.getElem?_eq_some_iff.mp hget
  have hperm := swapRemove_perm g.edges eid hlt
  obtain ⟨hpic_e, herase⟩ := pairInContact_of_edge hinv eid e hget a0 b0 hj
  have hpic_new : ∀ a b, pairInContact ⟨g.nodes, swapRemove g.edges eid⟩ a b =
      (g.edges.eraseIdx eid).any
        (fun e' => edgeJoinsHandles g.nodes a b e' && contactNonempty e'.2.2) :=
    fun a b => perm_any_eq hperm _
  have hpic_other : ∀ a b, ¬ ((a = a0 ∧ b = b0) ∨ (a = b0 ∧ b = a0)) →
      pairInContact ⟨g.nodes, swapRemove g.edges eid⟩ a b = pairInContact g a b := by
    intro a b hnp
    rw [hpic_new]
    unfold pairInContact
    rw [any_eraseIdx_eq g.edges eid _ hlt,
      show g.edges.get ⟨eid, hlt⟩ = e from hel]
    have hpe : edgeJoinsHandles g.nodes a b e = false := by
      cases hq : edgeJoinsHandles g.nodes a b e with
      | false => rfl
      | true => exact absurd (joins_pair_eq g.nodes a b a0 b0 e hj hq) hnp
    rw [hpe]
    simp
  have hpic_pair : pairInContact ⟨g.nodes, swapRemove g.edges eid⟩ a0 b0 = false := by
    rw [hpic_new]
    exact herase
  have hconcerns : ∀ a b, concernsPair a b (ContactEvent.Stopped a0 b0) = true →
      (a = a0 ∧ b = b0) ∨ (a = b0 ∧ b = a0) := by
    intro a b hc
    simp only [concernsPair, Bool.or_eq_true, Bool.and_eq_true, beq_iff_eq] at hc
    rcases hc with ⟨h1, h2⟩ | ⟨h1, h2⟩
    · exact Or.inl ⟨h1.symm, h2.symm⟩
    · exact Or.inr ⟨h2.symm, h1.symm⟩
  have halt_pair : altState (pairEvents a0 b0 (events ++
      (if contactNonempty e.2.2 = true then [ContactEvent.Stopped a0 b0] else []))) =
      some (!(pairInContact ⟨g.nodes, swapRemove g.edges eid⟩ a0 b0)) := by
    rw [hpic_pair]
    by_cases hce : contactNonempty e.2.2 = true
    · rw [if_pos hce, pairEvents_snoc_concerns _ _ _ _ (by simp [concernsPair]),
        altState_append_one, hinv.alt_live a0 b0 hne0 ha0 hb0, hpic_e, hce]
      rfl
    · rw [if_neg hce, List.append_nil, hinv.alt_live a0 b0 hne0 ha0 hb0, hpic_e]
      rw [Bool.not_eq_true] at hce
      rw [hce]
  constructor
  · exact hinv.backref
  · exact hinv.node_live
  · intro e' he'
    exact hinv.edge_bound e' (List.eraseIdx_subset _ _ (hperm.mem_iff.mp he'))
  · exact hperm.symm.pairwise
      ((hinv.edge_unique).sublist (List.eraseIdx_sublist _ _))
      (fun hxy => edgeBetween_false_symm hxy)
  · intro ev hev
    rcases List.mem_append.mp hev with hold | hnew
    · exact hinv.ev_handles ev hold
    · by_cases hce : contactNonempty e.2.2 = true
      · rw [if_pos hce, List.mem_singleton] at hnew
        subst hnew
        obtain ⟨coa, hcoa⟩ := Option.isSome_iff_exists.mp ha0
        obtain ⟨cob, hcob⟩ := Option.isSome_iff_exists.mp hb0
        exact ⟨slab_get_lt _ _ _ hcoa, slab_get_lt _ _ _ hcob⟩
      · rw [if_neg hce] at hnew
        cases hnew
  · -- alt_any
    intro a b hne
    by_cases hpair : (a = a0 ∧ b = b0) ∨ (a = b0 ∧ b = a0)
    · rcases hpair with ⟨rfl, rfl⟩ | ⟨rfl, rfl⟩
      · rw [halt_pair]
        rfl
      · rw [pairEvents_comm]
        rw [halt_pair]
        rfl
    · have hnc : concernsPair a b (ContactEvent.Stopped a0 b0) = false := by
        cases hq : concernsPair a b (ContactEvent.Stopped a0 b0) with
        | false => rfl
        | true => exact absurd (hconcerns a b hq) hpair
      by_cases hce : contactNonempty e.2.2 = true
      · rw [if_pos hce, pairEvents_snoc_other _ _ _ _ hnc]
        exact hinv.alt_any a b hne
      · rw [if_neg hce, List.append_nil]
        exact hinv.alt_any a b hne
  · -- alt_live
    intro a b hne hga hgb
    by_cases hpair : (a = a0 ∧ b = b0) ∨ (a = b0 ∧ b = a0)
    · rcases hpair with ⟨rfl, rfl⟩ | ⟨rfl, rfl⟩
      · exact halt_pair
      · rw [pairEvents_comm, pairInContact_comm]
        exact halt_pair
    · have hnc : concernsPair a b (ContactEvent.Stopped a0 b0) = false := by
        cases hq : concernsPair a b (ContactEvent.Stopped a0 b0) with
        | false => rfl
        | true => exact absurd (hconcerns a b hq) hpair
      rw [hpic_other a b hpair]
      by_cases hce : contactNonempty e.2.2 = true
      · rw [if_pos hce, pairEvents_snoc_other _ _ _ _ hnc]
        exact hinv.alt_live a b hne hga hgb
      · rw [if_neg hce, List.append_nil]
        exact hinv.alt_live a b hne hga hgb

/-- Adding an edge with an empty contact manifold (or a proximity detector)
between two distinct, existing nodes that are not yet connected preserves
the invariant; this covers the `started` branch of `handle_interaction`. -/
theorem inv_add_edge (objects : CollisionObjectSlab) (events : List ContactEvent)
    (g : InteractionGraph) (hinv : Inv objects events g) (gi1 gi2 : Nat)
    (wgt : Interaction) (hb1 : gi1 < g.nodes.length) (hb2 : gi2 < g.nodes.length)
    (hne : gi1 ≠ gi2) (hnoedge : g.contains_edge gi1 gi2 = false)
    (hce : contactNonempty wgt = false) :
    Inv objects events ⟨g.nodes, g.edges ++ [(gi1, gi2, wgt)]⟩ := by
  have hnb : ∀ e1 ∈ g.edges, edgeBetween gi1 gi2 e1 = false := by
    intro e1 he1
    unfold InteractionGraph.contains_edge InteractionGraph.find_edge at hnoedge
    have hnone : List.findIdx? (edgeBetween gi1 gi2) g.edges = none := by
      cases hq : List.findIdx? (edgeBetween gi1 gi2) g.edges with
      | none => rfl
      | some x => rw [hq] at hnoedge; cases hnoedge
    rw [List.findIdx?_eq_none_iff] at hnone
    exact hnone e1 he1
  constructor
  · exact hinv.backref
  · exact hinv.node_live
  · intro e he
    rcases List.mem_append.mp he with hold | hnew
    · exact hinv.edge_bound e hold
    · rw [List.mem_singleton] at hnew
      subst hnew
      exact ⟨hb1, hb2, hne⟩
  · rw [List.pairwise_append]
    refine ⟨hinv.edge_unique, List.pairwise_singleton _ _, ?_⟩
    intro e1 he1 e2 he2
    rw [List.mem_singleton] at he2
    subst he2
    have hfalse := hnb e1 he1
    rw [← edgeBetween_symm (gi1, gi2, wgt) e1]
    exact hfalse
  · exact hinv.ev_handles
  · exact hinv.alt_any
  · intro a b hnab hga hgb
    have hpic : pairInContact ⟨g.nodes, g.edges ++ [(gi1, gi2, wgt)]⟩ a b =
        pairInContact g a b := by
      unfold pairInContact
      rw [List.any_append]
      simp [hce]
    rw [hpic]
    exact hinv.alt_live a b hnab hga hgb

/-- The `signal` operation (a broad-phase interference callback routed to
`handle_interaction`) preserves the invariant. -/
theorem inv_signal (cdisp : ContactDispatcher) (pdisp : ProximityDispatcher)
    (w : CollisionWorld) (h1 h2 : Nat) (started : Bool)
    (res : NarrowPhase × InteractionGraph) (hne : h1 ≠ h2) (hinv : WorldInv w)
    (hres : NarrowPhase.handle_interaction cdisp pdisp w.narrow_phase w.interactions
      w.objects h1 h2 started = some res) :
    Inv w.objects res.1.contact_events res.2 := by
  have hlive : ∃ co1 co2, w.objects.get (min h1 h2) = some co1 ∧
      w.objects.get (max h1 h2) = some co2 := by
    unfold NarrowPhase.handle_interaction at hres
    simp only [SortedPair.new] at hres
    cases hc1 : w.objects.get (min h1 h2) with
    | none => rw [hc1] at hres; cases hres
    | some co1 =>
      cases hc2 : w.objects.get (max h1 h2) with
      | none => rw [hc1, hc2] at hres; cases hres
      | some co2 => exact ⟨co1, co2, rfl, rfl⟩
  obtain ⟨co1, co2, hc1, hc2⟩ := hlive
  obtain ⟨hh1, hw1⟩ := hinv.backref _ co1 hc1
  obtain ⟨hh2, hw2⟩ := hinv.backref _ co2 hc2
  have hb1 : co1.graph_index < w.interactions.nodes.length := by
    by_contra hge
    rw [List.getElem?_eq_none (Nat.le_of_not_lt hge)] at hw1
    cases hw1
  have hb2 : co2.graph_index < w.interactions.nodes.length := by
    by_contra hge
    rw [List.getElem?_eq_none (Nat.le_of_not_lt hge)] at hw2
    cases hw2
  have hkeyne : min h1 h2 ≠ max h1 h2 := by
    rcases Nat.lt_or_ge h1 h2 with hlt | hge
    · rw [Nat.min_eq_left (Nat.le_of_lt hlt), Nat.max_eq_right (Nat.le_of_lt hlt)]
      omega
    · have hlt2 : h2 < h1 := by omega
      rw [Nat.min_eq_right (Nat.le_of_lt hlt2), Nat.max_eq_left (Nat.le_of_lt hlt2)]
      omega
  have hgine : co1.graph_index ≠ co2.graph_index := by
    intro heq
    rw [heq, hw2] at hw1
    exact hkeyne (Option.some.inj hw1).symm
  cases started with
  | true =>
    obtain ⟨g', hcall, hcase_edge, hcase_noedge⟩ :=
      hi_started_cases cdisp pdisp w.narrow_phase w.interactions w.objects h1 h2 co1 co2
        hc1 hc2 hb1 hb2
    rw [hcall] at hres
    cases Option.some.inj hres
    by_cases hedge : w.interactions.contains_edge co1.graph_index co2.graph_index = true
    · rw [hcase_edge hedge]
      exact hinv
    · have hedgef : w.interactions.contains_edge co1.graph_index co2.graph_index = false := by
        rw [Bool.not_eq_true] at hedge
        exact hedge
      obtain ⟨hcontacts, hprox⟩ := hcase_noedge hedgef
      by_cases hbc : (co1.query_type.is_contacts && co2.query_type.is_contacts) = true
      · obtain ⟨hnone, hsome⟩ := hcontacts hbc
        cases hd : cdisp co1.shape co2.shape with
        | none =>
          rw [hnone hd]
          exact hinv
        | some d =>
          obtain ⟨hnodes, hedges⟩ := hsome d hd
          have hg' : g' = ⟨w.interactions.nodes,
              w.interactions.edges ++ [(co1.graph_index, co2.graph_index,
                Interaction.Contact d { contacts := [], cache := [] })]⟩ := by
            cases g'
            simp only [InteractionGraph.mk.injEq]
            exact ⟨hnodes, hedges⟩
          rw [hg']
          exact inv_add_edge _ _ _ hinv _ _ _ hb1 hb2 hgine hedgef (by
            simp [contactNonempty, ContactManifold.len])
      · have hbcf : (co1.query_type.is_contacts && co2.query_type.is_contacts) = false := by
          rw [Bool.not_eq_true] at hbc
          exact hbc
        obtain ⟨hnone, hsome⟩ := hprox hbcf
        cases hd : pdisp co1.shape co2.shape with
        | none =>
          rw [hnone hd]
          exact hinv
        | some d =>
          obtain ⟨hnodes, hedges⟩ := hsome d hd
          have hg' : g' = ⟨w.interactions.nodes,
              w.interactions.edges ++ [(co1.graph_index, co2.graph_index,
                Interaction.Proximity d)]⟩ := by
            cases g'
            simp only [InteractionGraph.mk.injEq]
            exact ⟨hnodes, hedges⟩
          rw [hg']
          exact inv_add_edge _ _ _ hinv _ _ _ hb1 hb2 hgine hedgef rfl
  | false =>
    obtain ⟨np', g', hcall, hcase_none, hcase_some⟩ :=
      hi_stopped_cases cdisp pdisp w.narrow_phase w.interactions w.objects h1 h2 co1 co2
        hc1 hc2
    rw [hcall] at hres
    cases Option.some.inj hres
    cases hfe : w.interactions.find_edge co1.graph_index co2.graph_index with
    | none =>
      obtain ⟨hnp, hg⟩ := hcase_none hfe
      rw [hnp, hg]
      exact hinv
    | some eid =>
      obtain ⟨e, hget, hbetween⟩ := find_edge_some w.interactions _ _ eid hfe
      obtain ⟨hnodes, hedges, hnp⟩ := hcase_some eid e hfe hget
      have hjoins : edgeJoinsHandles w.interactions.nodes (min h1 h2) (max h1 h2) e
          = true := by
        rw [joins_eq_between hinv (min h1 h2) (max h1 h2) co1.graph_index
          co2.graph_index hw1 hw2 e (by
            obtain ⟨hlt, hel⟩ := List.getElem?_eq_some_iff.mp hget
            rw [← hel]
            exact List.getElem_mem hlt)]
        exact hbetween
      have hg' : g' = ⟨w.interactions.nodes, swapRemove w.interactions.edges eid⟩ := by
        cases g'
        simp only [InteractionGraph.mk.injEq]
        exact ⟨hnodes, hedges⟩
      have hmain := inv_remove_edge w.objects w.narrow_phase.contact_events
        w.interactions hinv eid e hget (min h1 h2) (max h1 h2) hjoins hkeyne
        (by rw [hc1]; rfl) (by rw [hc2]; rfl)
      rw [hg']
      cases hw : e.2.2 with
      | Contact gen m =>
        rw [hw] at hnp
        have hnp2 : np' = (if m.len ≠ 0 then
            { w.narrow_phase with contact_events := w.narrow_phase.contact_events ++
              [ContactEvent.Stopped co1.handle co2.handle] }
          else w.narrow_phase) := hnp
        by_cases hlen : m.len ≠ 0
        · rw [if_pos hlen] at hnp2
          have hev : np'.contact_events = w.narrow_phase.contact_events ++
              [ContactEvent.Stopped co1.handle co2.handle] := by
            rw [hnp2]
          rw [hev, hh1, hh2]
          have hcnt : contactNonempty e.2.2 = true := by
            rw [hw]
            simp only [contactNonempty]
            simpa using hlen
          rw [if_pos hcnt] at hmain
          exact hmain
        · rw [if_neg hlen] at hnp2
          have hev : np'.contact_events = w.narrow_phase.contact_events := by rw [hnp2]
          rw [hev]
          have hcnt : contactNonempty e.2.2 = false := by
            rw [hw]
            simp only [contactNonempty]
            simpa using hlen
          have := hmain
          rw [if_neg (by rw [hcnt]; exact Bool.false_ne_true)] at this
          simpa using this
      | Proximity det =>
        rw [hw] at hnp
        have hnp2 : np' = (if det.prox ≠ Proximity.Disjoint then
            { w.narrow_phase with proximity_events := w.narrow_phase.proximity_events ++
              [⟨co1.handle, co2.handle, det.prox, Proximity.Disjoint⟩] }
          else w.narrow_phase) := hnp
        have hev : np'.contact_events = w.narrow_phase.contact_events := by
          by_cases hprox : det.prox ≠ Proximity.Disjoint
          · rw [if_pos hprox] at hnp2
            rw [hnp2]
          · rw [if_neg hprox] at hnp2
            rw [hnp2]
        rw [hev]
        have hcnt : contactNonempty e.2.2 = false := by
          rw [hw]
          rfl
        have := hmain
        rw [if_neg (by rw [hcnt]; exact Bool.false_ne_true)] at this
        simpa using this

/-- Replacing the weight of the edge at `eid` (keeping its endpoints) and
appending the transition event dictated by the old and new "non-empty
contact" status preserves the invariant; this covers one iteration of the
narrow-phase update loop. -/
theorem inv_replace_edge (objects : CollisionObjectSlab) (events : List ContactEvent)
    (g : InteractionGraph) (hinv : Inv objects events g) (eid : Nat)
    (e : Nat × Nat × Interaction) (hget : g.edges[eid]? = some e)
    (wgt' : Interaction) (a0 b0 : Nat)
    (hj : edgeJoinsHandles g.nodes a0 b0 e = true) (hne0 : a0 ≠ b0)
    (ha0 : (objects.get a0).isSome = true) (hb0 : (objects.get b0).isSome = true) :
    Inv objects (events ++
      (if contactNonempty e.2.2 = false ∧ contactNonempty wgt' = true then
        [ContactEvent.Started a0 b0]
       else if contactNonempty e.2.2 = true ∧ contactNonempty wgt' = false then
        [ContactEvent.Stopped a0 b0]
       else []))
      ⟨g.nodes, g.edges.set eid (e.1, e.2.1, wgt')⟩ := by
  obtain ⟨hlt, hel⟩ := List.getElem?_eq_some_iff.mp hget
  have hperm := set_perm_cons g.edges eid (e.1, e.2.1, wgt') hlt
  obtain ⟨hpic_e, herase⟩ := pairInContact_of_edge hinv eid e hget a0 b0 hj
  have hjoins_e' : ∀ a b, edgeJoinsHandles g.nodes a b (e.1, e.2.1, wgt') =
      edgeJoinsHandles g.nodes a b e := by
    intro a b
    exact edgeJoinsHandles_eq_of_endpoints _ _ _ _ _ rfl rfl
  have hpic_new : ∀ a b, pairInContact ⟨g.nodes, g.edges.set eid (e.1, e.2.1, wgt')⟩ a b =
      ((edgeJoinsHandles g.nodes a b e && contactNonempty wgt') ||
        (g.edges.eraseIdx eid).any
          (fun e' => edgeJoinsHandles g.nodes a b e' && contactNonempty e'.2.2)) := by
    intro a b
    unfold pairInContact
    rw [any_set_eq _ _ _ _ hlt]
    simp only [hjoins_e' a b]
  have hpic_pair : pairInContact ⟨g.nodes, g.edges.set eid (e.1, e.2.1, wgt')⟩ a0 b0 =
      contactNonempty wgt' := by
    rw [hpic_new, herase, hj]
    simp
  have hpic_other : ∀ a b, ¬ ((a = a0 ∧ b = b0) ∨ (a = b0 ∧ b = a0)) →
      pairInContact ⟨g.nodes, g.edges.set eid (e.1, e.2.1, wgt')⟩ a b =
        pairInContact g a b := by
    intro a b hnp
    have hpe : edgeJoinsHandles g.nodes a b e = false := by
      cases hq : edgeJoinsHandles g.nodes a b e with
      | false => rfl
      | true => exact absurd (joins_pair_eq g.nodes a b a0 b0 e hj hq) hnp
    rw [hpic_new, hpe]
    unfold pairInContact
    rw [any_eraseIdx_eq g.edges eid _ hlt, show g.edges.get ⟨eid, hlt⟩ = e from hel, hpe]
    simp
  have haltev : ∀ ev, (ev = ContactEvent.Started a0 b0 ∨ ev = ContactEvent.Stopped a0 b0) →
      ∀ a b, concernsPair a b ev = true →
      (a = a0 ∧ b = b0) ∨ (a = b0 ∧ b = a0) := by
    intro ev hev a b hc
    rcases hev with rfl | rfl <;>
      simp only [concernsPair, Bool.or_eq_true, Bool.and_eq_true, beq_iff_eq] at hc <;>
      rcases hc with ⟨hx, hy⟩ | ⟨hx, hy⟩
    · exact Or.inl ⟨hx.symm, hy.symm⟩
    · exact Or.inr ⟨hy.symm, hx.symm⟩
    · exact Or.inl ⟨hx.symm, hy.symm⟩
    · exact Or.inr ⟨hy.symm, hx.symm⟩
  have halt_pair : altState (pairEvents a0 b0 (events ++
      (if contactNonempty e.2.2 = false ∧ contactNonempty wgt' = true then
        [ContactEvent.Started a0 b0]
       else if contactNonempty e.2.2 = true ∧ contactNonempty wgt' = false then
        [ContactEvent.Stopped a0 b0]
       else []))) =
      some (!(contactNonempty wgt')) := by
    have hold := hinv.alt_live a0 b0 hne0 ha0 hb0
    rw [hpic_e] at hold
    cases hoc : contactNonempty e.2.2 <;> cases hnc : contactNonempty wgt'
    · rw [if_neg (by simp [hnc]), if_neg (by simp [hoc]), List.append_nil, hold, hoc]
    · rw [if_pos ⟨rfl, rfl⟩,
        pairEvents_snoc_concerns _ _ _ _ (by simp [concernsPair]),
        altState_append_one, hold, hoc]
      rfl
    · rw [if_neg (by simp [hoc]), if_pos ⟨rfl, rfl⟩,
        pairEvents_snoc_concerns _ _ _ _ (by simp [concernsPair]),
        altState_append_one, hold, hoc]
      rfl
    · rw [if_neg (by simp [hnc]), if_neg (by simp [hnc]), List.append_nil, hold, hoc]
  have hevshape : (if contactNonempty e.2.2 = false ∧ contactNonempty wgt' = true then
        [ContactEvent.Started a0 b0]
       else if contactNonempty e.2.2 = true ∧ contactNonempty wgt' = false then
        [ContactEvent.Stopped a0 b0]
       else []) = [] ∨
      (if contactNonempty e.2.2 = false ∧ contactNonempty wgt' = true then
        [ContactEvent.Started a0 b0]
       else if contactNonempty e.2.2 = true ∧ contactNonempty wgt' = false then
        [ContactEvent.Stopped a0 b0]
       else []) = [ContactEvent.Started a0 b0] ∨
      (if contactNonempty e.2.2 = false ∧ contactNonempty wgt' = true then
        [ContactEvent.Started a0 b0]
       else if contactNonempty e.2.2 = true ∧ contactNonempty wgt' = false then
        [ContactEvent.Stopped a0 b0]
       else []) = [ContactEvent.Stopped a0 b0] := by
    cases hoc : contactNonempty e.2.2 <;> cases hnc : contactNonempty wgt' <;>
      simp [hoc, hnc]
  constructor
  · exact hinv.backref
  · exact hinv.node_live
  · intro e' he'
    rcases List.mem_cons.mp (hperm.mem_iff.mp he') with heq | hmem
    · subst heq
      obtain ⟨hbb1, hbb2, hbne⟩ := hinv.edge_bound e (by rw [← hel]; exact List.getElem_mem hlt)
      exact ⟨hbb1, hbb2, hbne⟩
    · exact hinv.edge_bound e' (List.eraseIdx_subset _ _ hmem)
  · refine hperm.symm.pairwise ?_ (fun hxy => edgeBetween_false_symm hxy)
    rw [List.pairwise_cons]
    refine ⟨?_, (hinv.edge_unique).sublist (List.eraseIdx_sublist _ _)⟩
    intro e' he'
    have := between_eraseIdx_false g.edges hinv.edge_unique eid e hget e' he'
    exact this
  · intro ev hev
    rcases List.mem_append.mp hev with hold | hnew
    · exact hinv.ev_handles ev hold
    · obtain ⟨coa, hcoa⟩ := Option.isSome_iff_exists.mp ha0
      obtain ⟨cob, hcob⟩ := Option.isSome_iff_exists.mp hb0
      rcases hevshape with hsh | hsh | hsh <;> rw [hsh] at hnew
      · cases hnew
      · rw [List.mem_singleton] at hnew
        subst hnew
        exact ⟨slab_get_lt _ _ _ hcoa, slab_get_lt _ _ _ hcob⟩
      · rw [List.mem_singleton] at hnew
        subst hnew
        exact ⟨slab_get_lt _ _ _ hcoa, slab_get_lt _ _ _ hcob⟩
  · -- alt_any
    intro a b hne
    by_cases hpair : (a = a0 ∧ b = b0) ∨ (a = b0 ∧ b = a0)
    · rcases hpair with ⟨rfl, rfl⟩ | ⟨rfl, rfl⟩
      · rw [halt_pair]
        rfl
      · rw [pairEvents_comm, halt_pair]
        rfl
    · rcases hevshape with hsh | hsh | hsh <;> rw [hsh]
      · rw [List.append_nil]
        exact hinv.alt_any a b hne
      · rw [pairEvents_snoc_other _ _ _ _ (by
          cases hq : concernsPair a b (ContactEvent.Started a0 b0) with
          | false => rfl
          | true => exact absurd (haltev _ (Or.inl rfl) a b hq) hpair)]
        exact hinv.alt_any a b hne
      · rw [pairEvents_snoc_other _ _ _ _ (by
          cases hq : concernsPair a b (ContactEvent.Stopped a0 b0) with
          | false => rfl
          | true => exact absurd (haltev _ (Or.inr rfl) a b hq) hpair)]
        exact hinv.alt_any a b hne
  · -- alt_live
    intro a b hne hga hgb
    by_cases hpair : (a = a0 ∧ b = b0) ∨ (a = b0 ∧ b = a0)
    · rcases hpair with ⟨rfl, rfl⟩ | ⟨rfl, rfl⟩
      · rw [halt_pair, hpic_pair]
      · rw [pairEvents_comm, halt_pair, pairInContact_comm, hpic_pair]
    · rw [hpic_other a b hpair]
      rcases hevshape with hsh | hsh | hsh <;> rw [hsh]
      · rw [List.append_nil]
        exact hinv.alt_live a b hne hga hgb
      · rw [pairEvents_snoc_other _ _ _ _ (by
          cases hq : concernsPair a b (ContactEvent.Started a0 b0) with
          | false => rfl
          | true => exact absurd (haltev _ (Or.inl rfl) a b hq) hpair)]
        exact hinv.alt_live a b hne hga hgb
      · rw [pairEvents_snoc_other _ _ _ _ (by
          cases hq : concernsPair a b (ContactEvent.Stopped a0 b0) with
          | false => rfl
          | true => exact absurd (haltev _ (Or.inr rfl) a b hq) hpair)]
        exact hinv.alt_live a b hne hga hgb

theorem update_contact_isSome (genv : GenEnv) (np : NarrowPhase)
    (co1 co2 : CollisionObject) (det : Nat) (m : ContactManifold)
    (h : (co1.query_type.contact_queries_to_prediction co2.query_type).isSome = true) :
    ∃ res, np.update_contact genv co1 co2 det m = some res := by
  obtain ⟨p, hp⟩ := Option.isSome_iff_exists.mp h
  unfold NarrowPhase.update_contact
  rw [hp]
  exact ⟨_, rfl⟩

theorem update_contact_cases (genv : GenEnv) (np : NarrowPhase) (co1 co2 : CollisionObject)
    (det : Nat) (m : ContactManifold) (res : NarrowPhase × Nat × ContactManifold)
    (hres : np.update_contact genv co1 co2 det m = some res) :
    res.1.contact_events = np.contact_events ++
      (if m.len = 0 ∧ res.2.2.len ≠ 0 then [ContactEvent.Started co1.handle co2.handle]
       else if m.len ≠ 0 ∧ res.2.2.len = 0 then [ContactEvent.Stopped co1.handle co2.handle]
       else []) := by
  unfold NarrowPhase.update_contact at hres
  cases hp : co1.query_type.contact_queries_to_prediction co2.query_type with
  | none => rw [hp] at hres; cases hres
  | some p =>
    rw [hp] at hres
    cases Option.some.inj hres
    simp only [ContactManifold.len, ContactManifold.save_cache_and_clear, allocIds_length]
    by_cases h0 : m.contacts.length = 0 <;>
      by_cases h1 : (genv det co1.position co1.shape co2.position co2.shape p
          m.contacts).1.length = 0 <;>
        simp [h0, h1, ContactManifold.len, allocIds_length]

theorem update_proximity_contact_events (penv : ProxEnv) (np : NarrowPhase)
    (co1 co2 : CollisionObject) (det : ProxDetector) :
    (np.update_proximity penv co1 co2 det).1.contact_events = np.contact_events := by
  unfold NarrowPhase.update_proximity
  dsimp only
  split <;> rfl

theorem inv_update_edge (genv : GenEnv) (penv : ProxEnv) (objects : CollisionObjectSlab)
    (ts : Nat) (np : NarrowPhase) (g : InteractionGraph) (eid : Nat)
    (res : NarrowPhase × InteractionGraph) (hinv : Inv objects np.contact_events g)
    (hres : NarrowPhase.update_edge genv penv objects ts (np, g) eid = some res) :
    Inv objects res.1.contact_events res.2 := by
  unfold NarrowPhase.update_edge at hres
  dsimp only at hres
  cases hget : g.edges[eid]? with
  | none => rw [hget] at hres; cases hres
  | some e =>
    rw [hget] at hres
    dsimp only at hres
    cases hw1 : g.nodes[e.1]? with
    | none => rw [hw1] at hres; cases hres
    | some h1w =>
      cases hw2 : g.nodes[e.2.1]? with
      | none => rw [hw1, hw2] at hres; cases hres
      | some h2w =>
        rw [hw1, hw2] at hres
        dsimp only at hres
        cases hc1 : objects.get h1w with
        | none => rw [hc1] at hres; cases hres
        | some co1 =>
          cases hc2 : objects.get h2w with
          | none => rw [hc1, hc2] at hres; cases hres
          | some co2 =>
            rw [hc1, hc2] at hres
            dsimp only at hres
            have hemem : e ∈ g.edges := by
              obtain ⟨hlt, hel⟩ := List.getElem?_eq_some_iff.mp hget
              rw [← hel]
              exact List.getElem_mem hlt
            have hne0 : h1w ≠ h2w := by
              intro heq
              obtain ⟨_, _, hbne⟩ := hinv.edge_bound e hemem
              exact hbne (hinv.weight_inj hw1 (heq ▸ hw2))
            have hj : edgeJoinsHandles g.nodes h1w h2w e = true := by
              simp [edgeJoinsHandles, hw1, hw2]
            have hh1 : co1.handle = h1w := (hinv.backref h1w co1 hc1).1
            have hh2 : co2.handle = h2w := (hinv.backref h2w co2 hc2).1
            by_cases hts : co1.timestamp = ts ∨ co2.timestamp = ts
            · rw [if_pos hts] at hres
              cases hw : e.2.2 with
              | Contact genD m =>
                rw [hw] at hres
                unfold NarrowPhase.update_interaction at hres
                dsimp only at hres
                cases hu : np.update_contact genv co1 co2 genD m with
                | none => rw [hu] at hres; cases hres
                | some r =>
                  rw [hu] at hres
                  try simp only [Option.map_some, Option.some_bind] at hres
                  cases Option.some.inj hres
                  have hev := update_contact_cases genv np co1 co2 genD m r hu
                  simp only [hev, hh1, hh2]
                  have hmain := inv_replace_edge objects np.contact_events g hinv eid e
                    hget (Interaction.Contact r.2.1 r.2.2) h1w h2w hj hne0
                    (by rw [hc1]; rfl) (by rw [hc2]; rfl)
                  have hcond : (if m.len = 0 ∧ r.2.2.len ≠ 0 then
                        [ContactEvent.Started h1w h2w]
                      else if m.len ≠ 0 ∧ r.2.2.len = 0 then
                        [ContactEvent.Stopped h1w h2w]
                      else []) =
                      (if contactNonempty e.2.2 = false ∧
                          contactNonempty (Interaction.Contact r.2.1 r.2.2) = true then
                        [ContactEvent.Started h1w h2w]
                      else if contactNonempty e.2.2 = true ∧
                          contactNonempty (Interaction.Contact r.2.1 r.2.2) = false then
                        [ContactEvent.Stopped h1w h2w]
                      else []) := by
                    rw [hw]
                    simp only [contactNonempty]
                    by_cases h0 : m.len = 0 <;> by_cases h1 : r.2.2.len = 0 <;>
                      simp [h0, h1]
                  rw [hcond]
                  exact hmain
              | Proximity detD =>
                rw [hw] at hres
                unfold NarrowPhase.update_interaction at hres
                dsimp only at hres
                cases Option.some.inj hres
                have hmain := inv_replace_edge objects np.contact_events g hinv eid e
                  hget (Interaction.Proximity (np.update_proximity penv co1 co2 detD).2)
                  h1w h2w hj hne0 (by rw [hc1]; rfl) (by rw [hc2]; rfl)
                rw [hw] at hmain
                simp only [contactNonempty] at hmain
                simp only [update_proximity_contact_events]
                simpa using hmain
            · rw [if_neg hts] at hres
              cases Option.some.inj hres
              exact hinv

theorem inv_update_fold (genv : GenEnv) (penv : ProxEnv) (objects : CollisionObjectSlab)
    (ts : Nat) (l : List Nat) (np : NarrowPhase) (g : InteractionGraph)
    (res : NarrowPhase × InteractionGraph) (hinv : Inv objects np.contact_events g)
    (hres : l.foldlM (NarrowPhase.update_edge genv penv objects ts) (np, g) = some res) :
    Inv objects res.1.contact_events res.2 := by
  induction l generalizing np g with
  | nil =>
    cases Option.some.inj hres
    exact hinv
  | cons x xs ih =>
    rw [List.foldlM_cons] at hres
    cases hstep : NarrowPhase.update_edge genv penv objects ts (np, g) x with
    | none => rw [hstep] at hres; cases hres
    | some acc =>
      rw [hstep] at hres
      try simp only [Option.some_bind] at hres
      have hinv2 := inv_update_edge genv penv objects ts np g x acc hinv hstep
      exact ih acc.1 acc.2 hinv2 hres

theorem garbage_collect_ids_events (np : NarrowPhase) (g : InteractionGraph)
    (np' : NarrowPhase) (h : np.garbage_collect_ids g = some np') :
    np'.contact_events = np.contact_events := by
  unfold NarrowPhase.garbage_collect_ids at h
  cases hm : markEdges g.edges np.id_allocator with
  | none => rw [hm] at h; cases h
  | some a =>
    rw [hm] at h
    try simp only [Option.map_some] at h
    cases Option.some.inj h
    rfl

theorem inv_np_update (genv : GenEnv) (penv : ProxEnv) (np : NarrowPhase)
    (g : InteractionGraph) (objects : CollisionObjectSlab) (ts : Nat)
    (res : NarrowPhase × InteractionGraph) (hinv : Inv objects np.contact_events g)
    (hres : NarrowPhase.update genv penv np g objects ts = some res) :
    Inv objects res.1.contact_events res.2 := by
  unfold NarrowPhase.update at hres
  cases hf : (List.range g.edges.length).foldlM
      (NarrowPhase.update_edge genv penv objects ts) (np, g) with
  | none => rw [hf] at hres; cases hres
  | some mid =>
    rw [hf] at hres
    try simp only [Option.bind_eq_bind, Option.some_bind] at hres
    cases hgc : mid.1.garbage_collect_ids mid.2 with
    | none => rw [hgc] at hres; cases hres
    | some npf =>
      rw [hgc] at hres
      try simp only [Option.bind_eq_bind, Option.some_bind] at hres
      cases Option.some.inj hres
      have hmid := inv_update_fold genv penv objects ts _ np g mid hinv hf
      have hev := garbage_collect_ids_events mid.1 mid.2 npf hgc
      simp only [hev]
      exact hmid

theorem inv_step (genv : GenEnv) (penv : ProxEnv) (w w' : CollisionWorld)
    (hinv : WorldInv w) (hres : w.perform_narrow_phase genv penv = some w') :
    WorldInv w' := by
  unfold CollisionWorld.perform_narrow_phase at hres
  cases hu : NarrowPhase.update genv penv w.narrow_phase w.interactions w.objects
      w.timestamp with
  | none => rw [hu] at hres; cases hres
  | some res =>
    rw [hu] at hres
    try simp only [Option.map_some] at hres
    cases Option.some.inj hres
    exact inv_np_update genv penv w.narrow_phase w.interactions w.objects w.timestamp
      res hinv hu

theorem set_singleton_self {α : Type} (a : α) (k : Nat) : [a].set k a = [a] := by
  cases k with
  | zero => rfl
  | succ k => rfl

theorem swapRemove_concat_lt {α : Type} (ys : List α) (a : α) (i : Nat)
    (hi : i < ys.length) : swapRemove (ys ++ [a]) i = ys.set i a := by
  unfold swapRemove
  rw [List.getLast?_concat]
  show ((ys ++ [a]).set i a).dropLast = ys.set i a
  rw [List.set_append_left _ _ hi, List.dropLast_concat]

theorem swapRemove_concat_ge {α : Type} (ys : List α) (a : α) (i : Nat)
    (hi : ys.length ≤ i) : swapRemove (ys ++ [a]) i = ys := by
  unfold swapRemove
  rw [List.getLast?_concat]
  show ((ys ++ [a]).set i a).dropLast = ys
  rw [List.set_append_right _ _ hi, set_singleton_self, List.dropLast_concat]

theorem swapRemove_concat_length {α : Type} (ys : List α) (a : α) (i : Nat) :
    (swapRemove (ys ++ [a]) i).length = ys.length := by
  rcases Nat.lt_or_ge i ys.length with hlt | hge
  · rw [swapRemove_concat_lt ys a i hlt]
    simp
  · rw [swapRemove_concat_ge ys a i hge]

theorem slab_entries_set_get_self (s : CollisionObjectSlab) (h : Nat)
    (x : Option CollisionObject) (hlt : h < s.entries.length) :
    (⟨s.entries.set h x⟩ : CollisionObjectSlab).get h = x := by
  unfold CollisionObjectSlab.get
  rw [List.getD_eq_getElem?_getD, List.getElem?_set_self hlt]
  rfl

theorem slab_entries_set_get_ne (s : CollisionObjectSlab) (h h2 : Nat)
    (x : Option CollisionObject) (hne : h2 ≠ h) :
    (⟨s.entries.set h x⟩ : CollisionObjectSlab).get h2 = s.get h2 := by
  unfold CollisionObjectSlab.get
  rw [List.getD_eq_getElem?_getD, List.getElem?_set_ne (fun he => hne he.symm),
    ← List.getD_eq_getElem?_getD]

theorem rewire_inj (L id x y : Nat) (hxid : x ≠ id) (hyid : y ≠ id)
    (hr : (if x = L then id else x) = (if y = L then id else y)) : x = y := by
  split_ifs at hr <;> omega

theorem rewire_between_false (L id : Nat) (e1 e2 : Nat × Nat × Interaction)
    (hn11 : e1.1 ≠ id) (hn12 : e1.2.1 ≠ id) (hn21 : e2.1 ≠ id) (hn22 : e2.2.1 ≠ id)
    (hold : edgeBetween e1.1 e1.2.1 e2 = false) :
    edgeBetween (if e1.1 = L then id else e1.1) (if e1.2.1 = L then id else e1.2.1)
      (if e2.1 = L then id else e2.1, if e2.2.1 = L then id else e2.2.1, e2.2.2) = false := by
  rw [Bool.eq_false_iff] at hold ⊢
  intro hnew
  apply hold
  simp only [edgeBetween, Bool.or_eq_true, Bool.and_eq_true, beq_iff_eq] at hnew ⊢
  rcases hnew with ⟨ha, hb⟩ | ⟨ha, hb⟩
  · exact Or.inl ⟨rewire_inj L id _ _ hn21 hn11 ha, rewire_inj L id _ _ hn22 hn12 hb⟩
  · exact Or.inr ⟨rewire_inj L id _ _ hn21 hn12 ha, rewire_inj L id _ _ hn22 hn11 hb⟩

theorem joins_dead_false (nodes : List Nat) (id h a b : Nat)
    (hid : nodes[id]? = some h) (ha : a ≠ h) (hb : b ≠ h)
    (e : Nat × Nat × Interaction) (hdead : e.1 = id ∨ e.2.1 = id) :
    edgeJoinsHandles nodes a b e = false := by
  have h1 : (some h == some a) = false := by
    simp only [beq_eq_false_iff_ne, ne_eq, Option.some.injEq]
    exact fun he => ha he.symm
  have h2 : (some h == some b) = false := by
    simp only [beq_eq_false_iff_ne, ne_eq, Option.some.injEq]
    exact fun he => hb he.symm
  unfold edgeJoinsHandles
  rcases hdead with hd | hd
  · rw [hd, hid, h1, h2]
    simp
  · rw [hd, hid, h1, h2]
    simp

/-- Clearing the manifolds of edges incident to the removed node does not
change the kept (non-incident) edges. -/
theorem filter_clear_edges (edges : List (Nat × Nat × Interaction)) (id : Nat) :
    ((edges.map fun e =>
        if e.1 = id ∨ e.2.1 = id then
          (e.1, e.2.1,
            match e.2.2 with
            | .Contact gen manifold => Interaction.Contact gen manifold.clear
            | .Proximity det => Interaction.Proximity det)
        else e).filter fun e => e.1 ≠ id ∧ e.2.1 ≠ id) =
      edges.filter fun e => e.1 ≠ id ∧ e.2.1 ≠ id := by
  rw [List.filter_map]
  have hcomp : ((fun (e : Nat × Nat × Interaction) => decide (e.1 ≠ id ∧ e.2.1 ≠ id)) ∘
      fun e =>
        if e.1 = id ∨ e.2.1 = id then
          (e.1, e.2.1,
            match e.2.2 with
            | .Contact gen manifold => Interaction.Contact gen manifold.clear
            | .Proximity det => Interaction.Proximity det)
        else e) =
      fun (e : Nat × Nat × Interaction) => decide (e.1 ≠ id ∧ e.2.1 ≠ id) := by
    funext e
    by_cases hc : e.1 = id ∨ e.2.1 = id
    · simp only [Function.comp_apply, if_pos hc]
    · simp only [Function.comp_apply, if_neg hc]
  rw [hcomp]
  refine (List.map_congr_left ?_).trans (List.map_id' _)
  intro e he
  have hP : e.1 ≠ id ∧ e.2.1 ≠ id := by
    have := (List.mem_filter.mp he).2
    simpa using this
  have hnc : ¬(e.1 = id ∨ e.2.1 = id) := by tauto
  show (if e.1 = id ∨ e.2.1 = id then _ else e) = e
  rw [if_neg hnc]

/-- `handle_collision_object_removed`, computed: clearing incident manifolds
does not change the kept edges, so the result is the swap-removed node list
together with the kept edges rewired through the moved last node, plus the
handle now stored at the vacated slot. -/
theorem handle_removed_eq (g : InteractionGraph) (co : CollisionObject)
    (hid : co.graph_index < g.nodes.length) :
    NarrowPhase.handle_collision_object_removed g co =
      (⟨swapRemove g.nodes co.graph_index,
        (g.edges.filter fun e => e.1 ≠ co.graph_index ∧ e.2.1 ≠ co.graph_index).map
          fun e => (if e.1 = g.nodes.length - 1 then co.graph_index else e.1,
            if e.2.1 = g.nodes.length - 1 then co.graph_index else e.2.1, e.2.2)⟩,
       (swapRemove g.nodes co.graph_index)[co.graph_index]?) := by
  unfold NarrowPhase.handle_collision_object_removed InteractionGraph.remove_node
  try dsimp only
  rw [if_pos hid]
  try dsimp only
  rw [filter_clear_edges]

/-- Removing a live object's node (with swap-remove rewiring of the kept
edges) while vacating its slab slot preserves the execution invariant, for
any slab mutation whose survivors keep their handle, lose the removed handle,
and have their graph index rerouted through the moved last node. -/
theorem inv_remove_node_general (objects S : CollisionObjectSlab)
    (events : List ContactEvent) (ys : List Nat) (aw : Nat)
    (edges : List (Nat × Nat × Interaction)) (id h : Nat)
    (hinv : Inv objects events ⟨ys ++ [aw], edges⟩)
    (hidh : (ys ++ [aw])[id]? = some h)
    (hSlen : S.entries.length = objects.entries.length)
    (hSget : ∀ h' co', S.get h' = some co' →
      h' ≠ h ∧ ∃ co0, objects.get h' = some co0 ∧ co'.handle = co0.handle ∧
        co'.graph_index = (if co0.graph_index = ys.length then id else co0.graph_index))
    (hSlive : ∀ h', h' ≠ h → (objects.get h').isSome = true →
      (S.get h').isSome = true) :
    Inv S events
      ⟨swapRemove (ys ++ [aw]) id,
        (edges.filter fun e => e.1 ≠ id ∧ e.2.1 ≠ id).map
          fun e => (if e.1 = ys.length then id else e.1,
            if e.2.1 = ys.length then id else e.2.1, e.2.2)⟩ := by
  have hidlt : id < ys.length + 1 := by
    have := (List.getElem?_eq_some_iff.mp hidh).1
    simpa using this
  have hNlen : (swapRemove (ys ++ [aw]) id).length = ys.length :=
    swapRemove_concat_length ys aw id
  have hlastv : (ys ++ [aw])[ys.length]? = some aw := by
    rw [List.getElem?_append_right (Nat.le_refl _)]
    simp
  have hlook : ∀ x, x < ys.length + 1 → x ≠ id →
      (swapRemove (ys ++ [aw]) id)[if x = ys.length then id else x]? =
        (ys ++ [aw])[x]? := by
    intro x hx hxid
    by_cases hxl : x = ys.length
    · subst hxl
      have hidlt2 : id < ys.length := by omega
      rw [if_pos rfl, hlastv, swapRemove_concat_lt ys aw id hidlt2,
        List.getElem?_set_self hidlt2]
    · have hxlt : x < ys.length := by omega
      have hgx : (ys ++ [aw])[x]? = ys[x]? := List.getElem?_append_left hxlt
      rw [if_neg hxl]
      rcases Nat.lt_or_ge id ys.length with hlt | hge
      · rw [swapRemove_concat_lt ys aw id hlt,
          List.getElem?_set_ne (fun he => hxid he.symm), hgx]
      · rw [swapRemove_concat_ge ys aw id hge, hgx]
  have hrlt : ∀ x, x < ys.length + 1 → x ≠ id →
      (if x = ys.length then id else x) < ys.length := by
    intro x hx hxid
    by_cases hxl : x = ys.length
    · rw [if_pos hxl]
      omega
    · rw [if_neg hxl]
      omega
  have hrev : ∀ j h', (swapRemove (ys ++ [aw]) id)[j]? = some h' →
      ∃ x, x < ys.length + 1 ∧ x ≠ id ∧ (if x = ys.length then id else x) = j ∧
        (ys ++ [aw])[x]? = some h' := by
    intro j h' hj
    have hjlt : j < ys.length := by
      have hj2 := (List.getElem?_eq_some_iff.mp hj).1
      rwa [hNlen] at hj2
    rcases Nat.lt_or_ge id ys.length with hlt | hge
    · rw [swapRemove_concat_lt ys aw id hlt] at hj
      by_cases hji : j = id
      · subst hji
        rw [List.getElem?_set_self hlt] at hj
        cases Option.some.inj hj
        exact ⟨ys.length, by omega, by omega, by rw [if_pos rfl], hlastv⟩
      · rw [List.getElem?_set_ne (fun he => hji he.symm)] at hj
        exact ⟨j, by omega, hji, by rw [if_neg (by omega)],
          by rw [List.getElem?_append_left hjlt]; exact hj⟩
    · rw [swapRemove_concat_ge ys aw id hge] at hj
      exact ⟨j, by omega, by omega, by rw [if_neg (by omega)],
        by rw [List.getElem?_append_left hjlt]; exact hj⟩
  constructor
  · intro h' co' hget'
    obtain ⟨hne, co0, hco0, hhan, hgi⟩ := hSget h' co' hget'
    obtain ⟨hhan0, hw0⟩ := hinv.backref h' co0 hco0
    have hw0' : (ys ++ [aw])[co0.graph_index]? = some h' := hw0
    have hgi0lt : co0.graph_index < ys.length + 1 := by
      have := (List.getElem?_eq_some_iff.mp hw0').1
      simpa using this
    have hgi0ne : co0.graph_index ≠ id := by
      intro he
      rw [he, hidh] at hw0'
      exact hne (Option.some.inj hw0').symm
    refine ⟨hhan.trans hhan0, ?_⟩
    show (swapRemove (ys ++ [aw]) id)[co'.graph_index]? = some h'
    rw [hgi, hlook co0.graph_index hgi0lt hgi0ne]
    exact hw0'
  · intro j h' hj
    have hj' : (swapRemove (ys ++ [aw]) id)[j]? = some h' := hj
    obtain ⟨x, hx, hxid, hrx, hxval⟩ := hrev j h' hj'
    obtain ⟨co0, hco0, hgix⟩ := hinv.node_live x h' hxval
    have hne : h' ≠ h := by
      intro he
      subst he
      exact hxid (hinv.weight_inj hxval hidh)
    have hSsome := hSlive h' hne (by rw [hco0]; rfl)
    cases hS : S.get h' with
    | none =>
      rw [hS] at hSsome
      cases hSsome
    | some co' =>
      obtain ⟨_, co0', hco0', hhan', hgi'⟩ := hSget h' co' hS
      rw [hco0] at hco0'
      cases Option.some.inj hco0'
      refine ⟨co', rfl, ?_⟩
      rw [hgi', hgix]
      exact hrx
  · intro e' he'
    have he'' : e' ∈ (edges.filter fun e => e.1 ≠ id ∧ e.2.1 ≠ id).map
        (fun e => (if e.1 = ys.length then id else e.1,
          if e.2.1 = ys.length then id else e.2.1, e.2.2)) := he'
    obtain ⟨e, hemem, rfl⟩ := List.mem_map.mp he''
    obtain ⟨heg, hPb⟩ := List.mem_filter.mp hemem
    have hP : e.1 ≠ id ∧ e.2.1 ≠ id := by simpa using hPb
    have hb := hinv.edge_bound e heg
    have hb1 : e.1 < ys.length + 1 := by
      have := hb.1
      simpa using this
    have hb2 : e.2.1 < ys.length + 1 := by
      have := hb.2.1
      simpa using this
    refine ⟨?_, ?_, ?_⟩
    · show (if e.1 = ys.length then id else e.1) < (swapRemove (ys ++ [aw]) id).length
      rw [hNlen]
      exact hrlt e.1 hb1 hP.1
    · show (if e.2.1 = ys.length then id else e.2.1) < (swapRemove (ys ++ [aw]) id).length
      rw [hNlen]
      exact hrlt e.2.1 hb2 hP.2
    · show (if e.1 = ys.length then id else e.1) ≠ (if e.2.1 = ys.length then id else e.2.1)
      intro heq
      exact hb.2.2 (rewire_inj ys.length id e.1 e.2.1 hP.1 hP.2 heq)
  · show ((edges.filter fun e => e.1 ≠ id ∧ e.2.1 ≠ id).map
        (fun e => (if e.1 = ys.length then id else e.1,
          if e.2.1 = ys.length then id else e.2.1, e.2.2))).Pairwise
      fun e1 e2 => edgeBetween e1.1 e1.2.1 e2 = false
    rw [List.pairwise_map]
    have hpw : (edges.filter fun e => e.1 ≠ id ∧ e.2.1 ≠ id).Pairwise
        fun e1 e2 => edgeBetween e1.1 e1.2.1 e2 = false :=
      List.Pairwise.sublist (List.filter_sublist _) hinv.edge_unique
    refine hpw.imp_of_mem ?_
    intro e1 e2 h1m h2m hfalse
    have hP1 : e1.1 ≠ id ∧ e1.2.1 ≠ id := by
      have := (List.mem_filter.mp h1m).2
      simpa using this
    have hP2 : e2.1 ≠ id ∧ e2.2.1 ≠ id := by
      have := (List.mem_filter.mp h2m).2
      simpa using this
    exact rewire_between_false ys.length id e1 e2 hP1.1 hP1.2 hP2.1 hP2.2 hfalse
  · intro ev hev
    have hbd := hinv.ev_handles ev hev
    show eventBounded S.entries.length ev
    rw [hSlen]
    exact hbd
  · exact hinv.alt_any
  · intro a b hab hga hgb
    cases hSa : S.get a with
    | none =>
      rw [hSa] at hga
      cases hga
    | some coa =>
    cases hSb : S.get b with
    | none =>
      rw [hSb] at hgb
      cases hgb
    | some cob =>
    obtain ⟨hna, coa0, hcoa0, _, _⟩ := hSget a coa hSa
    obtain ⟨hnb, cob0, hcob0, _, _⟩ := hSget b cob hSb
    have hold := hinv.alt_live a b hab (by rw [hcoa0]; rfl) (by rw [hcob0]; rfl)
    have hpic : pairInContact
        ⟨swapRemove (ys ++ [aw]) id,
          (edges.filter fun e => e.1 ≠ id ∧ e.2.1 ≠ id).map
            fun e => (if e.1 = ys.length then id else e.1,
              if e.2.1 = ys.length then id else e.2.1, e.2.2)⟩ a b =
        pairInContact ⟨ys ++ [aw], edges⟩ a b := by
      unfold pairInContact
      dsimp only
      rw [List.any_map, List.any_filter]
      apply any_congr
      intro e hemem
      have hb := hinv.edge_bound e hemem
      have hb1 : e.1 < ys.length + 1 := by
        have := hb.1
        simpa using this
      have hb2 : e.2.1 < ys.length + 1 := by
        have := hb.2.1
        simpa using this
      show (decide (e.1 ≠ id ∧ e.2.1 ≠ id) &&
          (edgeJoinsHandles (swapRemove (ys ++ [aw]) id) a b
            (if e.1 = ys.length then id else e.1,
              if e.2.1 = ys.length then id else e.2.1, e.2.2) && contactNonempty e.2.2)) =
        (edgeJoinsHandles (ys ++ [aw]) a b e && contactNonempty e.2.2)
      by_cases hP : e.1 ≠ id ∧ e.2.1 ≠ id
      · have hje : edgeJoinsHandles (swapRemove (ys ++ [aw]) id) a b
            (if e.1 = ys.length then id else e.1,
              if e.2.1 = ys.length then id else e.2.1, e.2.2) =
            edgeJoinsHandles (ys ++ [aw]) a b e := by
          unfold edgeJoinsHandles
          rw [hlook e.1 hb1 hP.1, hlook e.2.1 hb2 hP.2]
        rw [decide_eq_true hP, Bool.true_and, hje]
      · have hdead : e.1 = id ∨ e.2.1 = id := by tauto
        rw [decide_eq_false hP, Bool.false_and,
          joins_dead_false (ys ++ [aw]) id h a b hidh hna hnb e hdead, Bool.false_and]
    rw [hpic]
    exact hold

/-- `remove` of a non-last node: the handle `aw` stored at the last node is
displaced into the removed slot, and its object's graph index is rewritten. -/
theorem inv_remove_shift (objects : CollisionObjectSlab) (events : List ContactEvent)
    (ys : List Nat) (aw : Nat) (edges : List (Nat × Nat × Interaction))
    (h : Nat) (co co2 : CollisionObject)
    (hinv : Inv objects events ⟨ys ++ [aw], edges⟩)
    (hco : objects.get h = some co)
    (hidh : (ys ++ [aw])[co.graph_index]? = some h)
    (hco2 : objects.get aw = some co2) (hgi2 : co2.graph_index = ys.length)
    (hawne : aw ≠ h) :
    Inv ⟨(objects.set aw { co2 with graph_index := co.graph_index }).entries.set h none⟩
      events
      ⟨swapRemove (ys ++ [aw]) co.graph_index,
        (edges.filter fun e => e.1 ≠ co.graph_index ∧ e.2.1 ≠ co.graph_index).map
          fun e => (if e.1 = ys.length then co.graph_index else e.1,
            if e.2.1 = ys.length then co.graph_index else e.2.1, e.2.2)⟩ := by
  have hhlt : h < objects.entries.length := slab_get_lt _ _ _ hco
  have hawlt : aw < objects.entries.length := slab_get_lt _ _ _ hco2
  have hhlt1 : h < (objects.set aw { co2 with graph_index := co.graph_index }).entries.length := by
    simpa [CollisionObjectSlab.set] using hhlt
  have hawh : (ys ++ [aw])[ys.length]? = some aw := by
    rw [List.getElem?_append_right (Nat.le_refl _)]
    simp
  apply inv_remove_node_general objects _ events ys aw edges co.graph_index h hinv hidh
  · show ((objects.set aw { co2 with graph_index := co.graph_index }).entries.set h
      none).length = objects.entries.length
    simp [CollisionObjectSlab.set]
  · intro h' co' hg
    by_cases hgh : h' = h
    · subst hgh
      rw [slab_entries_set_get_self _ _ _ hhlt1] at hg
      exact Option.noConfusion hg
    · rw [slab_entries_set_get_ne _ _ _ _ hgh] at hg
      by_cases hgaw : h' = aw
      · subst hgaw
        rw [slab_get_set_self _ _ _ hawlt] at hg
        cases Option.some.inj hg
        refine ⟨hgh, co2, hco2, rfl, ?_⟩
        rw [if_pos hgi2]
      · rw [slab_get_set_ne _ _ _ _ (fun he => hgaw he.symm)] at hg
        refine ⟨hgh, co', hg, rfl, ?_⟩
        have hb := hinv.backref h' co' hg
        have hb2 : (ys ++ [aw])[co'.graph_index]? = some h' := hb.2
        have hgine : co'.graph_index ≠ ys.length := by
          intro he
          rw [he] at hb2
          exact hgaw (Option.some.inj (hawh.symm.trans hb2)).symm
        rw [if_neg hgine]
  · intro h' hneh hsome
    rw [slab_entries_set_get_ne _ _ _ _ hneh]
    by_cases hgaw : h' = aw
    · subst hgaw
      rw [slab_get_set_self _ _ _ hawlt]
      rfl
    · rw [slab_get_set_ne _ _ _ _ (fun he => hgaw he.symm)]
      exact hsome

/-- `remove` of the last node: no displaced handle, only the slab slot is
vacated. -/
theorem inv_remove_last (objects : CollisionObjectSlab) (events : List ContactEvent)
    (ys : List Nat) (aw : Nat) (edges : List (Nat × Nat × Interaction))
    (h : Nat) (co : CollisionObject)
    (hinv : Inv objects events ⟨ys ++ [aw], edges⟩)
    (hco : objects.get h = some co)
    (hidh : (ys ++ [aw])[co.graph_index]? = some h)
    (hidl : co.graph_index = ys.length) :
    Inv ⟨objects.entries.set h none⟩ events
      ⟨swapRemove (ys ++ [aw]) co.graph_index,
        (edges.filter fun e => e.1 ≠ co.graph_index ∧ e.2.1 ≠ co.graph_index).map
          fun e => (if e.1 = ys.length then co.graph_index else e.1,
            if e.2.1 = ys.length then co.graph_index else e.2.1, e.2.2)⟩ := by
  have hhlt : h < objects.entries.length := slab_get_lt _ _ _ hco
  apply inv_remove_node_general objects _ events ys aw edges co.graph_index h hinv hidh
  · show (objects.entries.set h none).length = objects.entries.length
    simp
  · intro h' co' hg
    by_cases hgh : h' = h
    · subst hgh
      rw [slab_entries_set_get_self _ _ _ hhlt] at hg
      exact Option.noConfusion hg
    · rw [slab_entries_set_get_ne _ _ _ _ hgh] at hg
      refine ⟨hgh, co', hg, rfl, ?_⟩
      have hb := hinv.backref h' co' hg
      have hb2 : (ys ++ [aw])[co'.graph_index]? = some h' := hb.2
      have hgine : co'.graph_index ≠ ys.length := by
        intro he
        rw [he, ← hidl] at hb2
        exact hgh (Option.some.inj (hidh.symm.trans hb2)).symm
      rw [if_neg hgine]
  · intro h' hneh hsome
    rw [slab_entries_set_get_ne _ _ _ _ hneh]
    exact hsome

/-- `CollisionWorld::remove` on a single live handle preserves the execution
invariant. -/
theorem inv_remove_one (w : CollisionWorld) (h : Nat) (w' : CollisionWorld)
    (hinv : WorldInv w) (hres : w.remove [h] = some w') : WorldInv w' := by
  unfold CollisionWorld.remove at hres
  cases hco : w.objects.get h with
  | none =>
    unfold removeLoop1 at hres
    rw [hco] at hres
    exact Option.noConfusion hres
  | some co =>
    obtain ⟨hhan, hwid⟩ := hinv.backref h co hco
    have hwid' : w.interactions.nodes[co.graph_index]? = some h := hwid
    have hidlt : co.graph_index < w.interactions.nodes.length :=
      (List.getElem?_eq_some_iff.mp hwid').1
    rcases List.eq_nil_or_concat w.interactions.nodes with hnil | ⟨ys, aw, hcat⟩
    · rw [hnil] at hidlt
      cases hidlt
    · have hcat' : w.interactions.nodes = ys ++ [aw] := by
        rw [hcat, List.concat_eq_append]
      have hidle : co.graph_index ≤ ys.length := by
        rw [hcat'] at hidlt
        simp only [List.length_append, List.length_cons, List.length_nil] at hidlt
        omega
      have hre := handle_removed_eq w.interactions co hidlt
      have hlen1 : w.interactions.nodes.length - 1 = ys.length := by
        rw [hcat']
        simp
      rw [hlen1, hcat'] at hre
      have hgeq : w.interactions = (⟨ys ++ [aw], w.interactions.edges⟩ : InteractionGraph) := by
        rw [← hcat']
      have hinv' : Inv w.objects w.narrow_phase.contact_events
          ⟨ys ++ [aw], w.interactions.edges⟩ := by
        rw [← hgeq]
        exact hinv
      have hidh' : (ys ++ [aw])[co.graph_index]? = some h := by
        rw [← hcat']
        exact hwid'
      rcases Nat.lt_or_ge co.graph_index ys.length with hcase | hcase
      · have hropt : (swapRemove (ys ++ [aw]) co.graph_index)[co.graph_index]? = some aw := by
          rw [swapRemove_concat_lt ys aw _ hcase, List.getElem?_set_self hcase]
        have hawh' : w.interactions.nodes[ys.length]? = some aw := by
          rw [hcat', List.getElem?_append_right (Nat.le_refl _)]
          simp
        obtain ⟨co2, hco2, hgi2⟩ := hinv.node_live ys.length aw hawh'
        have hawne : aw ≠ h := by
          intro he
          subst he
          have := hinv.weight_inj hawh' hwid'
          omega
        unfold removeLoop1 at hres
        rw [hco] at hres
        try dsimp only at hres
        rw [hre] at hres
        try dsimp only at hres
        rw [hropt] at hres
        try dsimp only at hres
        rw [hco2] at hres
        try dsimp only at hres
        try unfold removeLoop1 at hres
        try simp only [Option.some_bind] at hres
        try dsimp only at hres
        have hget1 : (w.objects.set aw { co2 with graph_index := co.graph_index }).get h =
            some co := by
          rw [slab_get_set_ne _ _ _ _ hawne]
          exact hco
        have hrem2 : removeLoop2
            (w.objects.set aw { co2 with graph_index := co.graph_index }) [h] =
            some ⟨(w.objects.set aw
              { co2 with graph_index := co.graph_index }).entries.set h none⟩ := by
          unfold removeLoop2 CollisionObjectSlab.remove
          rw [hget1]
          rfl
        rw [hrem2] at hres
        try simp only [Option.map_some] at hres
        cases Option.some.inj hres
        exact inv_remove_shift w.objects w.narrow_phase.contact_events ys aw
          w.interactions.edges h co co2 hinv' hco hidh' hco2 hgi2 hawne
      · have hideq : co.graph_index = ys.length := by omega
        have hropt : (swapRemove (ys ++ [aw]) co.graph_index)[co.graph_index]? = none := by
          rw [swapRemove_concat_ge ys aw _ hcase]
          exact List.getElem?_eq_none (by omega)
        unfold removeLoop1 at hres
        rw [hco] at hres
        try dsimp only at hres
        rw [hre] at hres
        try dsimp only at hres
        rw [hropt] at hres
        try dsimp only at hres
        try unfold removeLoop1 at hres
        try simp only [Option.some_bind] at hres
        try dsimp only at hres
        have hrem2 : removeLoop2 w.objects [h] = some ⟨w.objects.entries.set h none⟩ := by
          unfold removeLoop2 CollisionObjectSlab.remove
          rw [hco]
          rfl
        rw [hrem2] at hres
        try simp only [Option.map_some] at hres
        cases Option.some.inj hres
        exact inv_remove_last w.objects w.narrow_phase.contact_events ys aw
          w.interactions.edges h co hinv' hco hidh' hideq

/-- The invariant holds in a fresh world. -/
theorem inv_new : WorldInv (CollisionWorld.new 0) := by
  constructor
  · intro h co hget
    exact Option.noConfusion hget
  · intro i h hnode
    exact Option.noConfusion hnode
  · intro e he
    exact absurd he (List.not_mem_nil e)
  · exact List.Pairwise.nil
  · intro ev hev
    exact absurd hev (List.not_mem_nil ev)
  · intro a b hab
    rfl
  · intro a b hab hga
    exact Bool.noConfusion hga

/-- A removal-free operation keeps the slab vacancy-free. -/
theorem noVacant_apply_op (w w1 : CollisionWorld) (op : WorldOp)
    (hv : noVacant w.objects) (hnrem : ∀ hh, op ≠ .removeObject hh)
    (hstep : applyOp w op = some w1) : noVacant w1.objects := by
  cases op with
  | add pos shape groups qt data =>
    cases Option.some.inj hstep
    exact noVacant_add w pos shape groups qt data hv
  | signal cdisp pdisp h1 h2 started =>
    have hstep' : (NarrowPhase.handle_interaction cdisp pdisp w.narrow_phase w.interactions
        w.objects h1 h2 started).map
        (fun res => { w with narrow_phase := res.1, interactions := res.2 }) = some w1 := hstep
    cases hhi : NarrowPhase.handle_interaction cdisp pdisp w.narrow_phase w.interactions
        w.objects h1 h2 started with
    | none =>
      rw [hhi] at hstep'
      exact Option.noConfusion hstep'
    | some res =>
      rw [hhi] at hstep'
      try simp only [Option.map_some] at hstep'
      cases Option.some.inj hstep'
      exact hv
  | step genv penv =>
    have hstep' : (NarrowPhase.update genv penv w.narrow_phase w.interactions w.objects
        w.timestamp).map (fun res =>
          { w with narrow_phase := res.1, interactions := res.2, timestamp := w.timestamp + 1 }) = some w1 := hstep
    cases hu : NarrowPhase.update genv penv w.narrow_phase w.interactions w.objects
        w.timestamp with
    | none =>
      rw [hu] at hstep'
      exact Option.noConfusion hstep'
    | some res =>
      rw [hu] at hstep'
      try simp only [Option.map_some] at hstep'
      cases Option.some.inj hstep'
      exact hv
  | removeObject hh => exact absurd rfl (hnrem hh)
  | set_position hh pos =>
    have hstep' : w.set_position hh pos = some w1 := hstep
    unfold CollisionWorld.set_position at hstep'
    cases hco : w.objects.get hh with
    | none =>
      rw [hco] at hstep'
      exact Option.noConfusion hstep'
    | some co =>
      rw [hco] at hstep'
      cases Option.some.inj hstep'
      exact noVacant_set w.objects hh _ hv
  | set_position_with_prediction hh pos ppos =>
    have hstep' : w.set_position_with_prediction hh pos ppos = some w1 := hstep
    unfold CollisionWorld.set_position_with_prediction at hstep'
    cases hco : w.objects.get hh with
    | none =>
      rw [hco] at hstep'
      exact Option.noConfusion hstep'
    | some co =>
      rw [hco] at hstep'
      cases Option.some.inj hstep'
      exact noVacant_set w.objects hh _ hv
  | set_query_type hh q =>
    have hstep' : w.set_query_type hh q = some w1 := hstep
    unfold CollisionWorld.set_query_type at hstep'
    cases hco : w.objects.get hh with
    | none =>
      rw [hco] at hstep'
      exact Option.noConfusion hstep'
    | some co =>
      rw [hco] at hstep'
      cases Option.some.inj hstep'
      exact noVacant_set w.objects hh _ hv
  | set_shape hh s =>
    have hstep' : w.set_shape hh s = some w1 := hstep
    unfold CollisionWorld.set_shape at hstep'
    cases hco : w.objects.get hh with
    | none =>
      rw [hco] at hstep'
      cases Option.some.inj hstep'
      exact hv
    | some co =>
      rw [hco] at hstep'
      cases Option.some.inj hstep'
      exact noVacant_set w.objects hh _ hv
  | set_deformations hh coords =>
    have hstep' : w.set_deformations hh coords = some w1 := hstep
    unfold CollisionWorld.set_deformations at hstep'
    cases hco : w.objects.get hh with
    | none =>
      rw [hco] at hstep'
      exact Option.noConfusion hstep'
    | some co =>
      rw [hco] at hstep'
      cases Option.some.inj hstep'
      exact noVacant_set w.objects hh _ hv
  | set_collision_groups hh groups =>
    have hstep' : w.set_collision_groups hh groups = some w1 := hstep
    unfold CollisionWorld.set_collision_groups at hstep'
    cases hco : w.objects.get hh with
    | none =>
      rw [hco] at hstep'
      cases Option.some.inj hstep'
      exact hv
    | some co =>
      rw [hco] at hstep'
      cases Option.some.inj hstep'
      exact noVacant_set w.objects hh _ hv

/-- Applying one execution operation preserves the invariant (a signalled
pair has distinct handles, per the broad-phase contract; the slab is
vacancy-free, so an addition allocates a fresh handle). -/
theorem inv_apply_op (w w1 : CollisionWorld) (op : WorldOp) (hinv : WorldInv w)
    (hok : ∀ cd pd h1 h2 st, op = .signal cd pd h1 h2 st → h1 ≠ h2)
    (hfull : noVacant w.objects)
    (hstep : applyOp w op = some w1) : WorldInv w1 := by
  cases op with
  | add pos shape groups qt data =>
    cases Option.some.inj hstep
    exact inv_add w pos shape groups qt data hinv hfull
  | signal cdisp pdisp h1 h2 started =>
    have hne : h1 ≠ h2 := hok cdisp pdisp h1 h2 started rfl
    have hstep' : (NarrowPhase.handle_interaction cdisp pdisp w.narrow_phase w.interactions
        w.objects h1 h2 started).map
        (fun res => { w with narrow_phase := res.1, interactions := res.2 }) = some w1 := hstep
    cases hhi : NarrowPhase.handle_interaction cdisp pdisp w.narrow_phase w.interactions
        w.objects h1 h2 started with
    | none =>
      rw [hhi] at hstep'
      exact Option.noConfusion hstep'
    | some res =>
      rw [hhi] at hstep'
      try simp only [Option.map_some] at hstep'
      cases Option.some.inj hstep'
      exact inv_signal cdisp pdisp w h1 h2 started res hne hinv hhi
  | step genv penv => exact inv_step genv penv w w1 hinv hstep
  | removeObject hh => exact inv_remove_one w hh w1 hinv hstep
  | set_position hh pos => exact inv_set_position w hh pos w1 hinv hstep
  | set_position_with_prediction hh pos ppos =>
    exact inv_set_position_with_prediction w hh pos ppos w1 hinv hstep
  | set_query_type hh q => exact inv_set_query_type w hh q w1 hinv hstep
  | set_shape hh s => exact inv_set_shape w hh s w1 hinv hstep
  | set_deformations hh coords => exact inv_set_deformations w hh coords w1 hinv hstep
  | set_collision_groups hh groups => exact inv_set_collision_groups w hh groups w1 hinv hstep

/-- Running a whole removal-free execution preserves the invariant, given the
broad-phase contract on signalled pairs. -/
theorem inv_exec (ops : List WorldOp) (w w' : CollisionWorld) (hinv : WorldInv w)
    (hd : signalsDistinct ops) (hnr : noRemovals ops) (hfull : noVacant w.objects)
    (hres : exec w ops = some w') : WorldInv w' := by
  induction ops generalizing w with
  | nil =>
    cases Option.some.inj hres
    exact hinv
  | cons op rest ih =>
    unfold exec at hres
    cases hstep : applyOp w op with
    | none =>
      rw [hstep] at hres
      exact Option.noConfusion hres
    | some w1 =>
      rw [hstep] at hres
      simp only [Option.some_bind] at hres
      have hok : ∀ cd pd h1 h2 st, op = .signal cd pd h1 h2 st → h1 ≠ h2 := by
        intro cd pd h1 h2 st hop
        subst hop
        exact hd.1
      have hnrem : ∀ hh, op ≠ .removeObject hh := by
        intro hh hop
        subst hop
        exact hnr
      have hd' : signalsDistinct rest := by
        cases op with
        | signal cd pd h1 h2 st => exact hd.2
        | add a b c d e => exact hd
        | step a b => exact hd
        | removeObject a => exact hd
        | set_position a b => exact hd
        | set_position_with_prediction a b c => exact hd
        | set_query_type a b => exact hd
        | set_shape a b => exact hd
        | set_deformations a b => exact hd
        | set_collision_groups a b => exact hd
      have hnr' : noRemovals rest := by
        cases op with
        | signal cd pd h1 h2 st => exact hnr
        | add a b c d e => exact hnr
        | step a b => exact hnr
        | removeObject a => exact hnr.elim
        | set_position a b => exact hnr
        | set_position_with_prediction a b c => exact hnr
        | set_query_type a b => exact hnr
        | set_shape a b => exact hnr
        | set_deformations a b => exact hnr
        | set_collision_groups a b => exact hnr
      have hfull1 : noVacant w1.objects := noVacant_apply_op w w1 op hfull hnrem hstep
      exact ih w1 (inv_apply_op w w1 op hinv hok hfull hstep) hd' hnr' hfull1 hres

/-- **C9** (corrected): for every removal-free execution of world steps from
a fresh world (with the broad phase only ever signalling pairs of distinct
handles) and every unordered pair of handles, the contact events concerning
that pair, taken in emission order across all steps, strictly alternate
`Started, Stopped, Started, …` beginning with `Started`: a `Stopped` is never
emitted without a preceding unmatched `Started`, and never two consecutive
`Started` or `Stopped`.  The original unrestricted claim fails under object
removal: removal silently discards a non-empty manifold (emitting no
`Stopped`) and vacates the handle, which a later insertion reclaims, so the
reused pair can open with a second unmatched `Started`. -/
theorem contact_events_alternate (ops : List WorldOp) (w' : CollisionWorld)
    (hd : signalsDistinct ops) (hnr : noRemovals ops)
    (hres : exec (CollisionWorld.new 0) ops = some w')
    (a b : Nat) (hab : a ≠ b) :
    (altState (pairEvents a b w'.narrow_phase.contact_events)).isSome = true :=
  (inv_exec ops (CollisionWorld.new 0) w' inv_new hd hnr
    (fun x hx => absurd hx (List.not_mem_nil x)) hres).alt_any a b hab

theorem contact_events_alternate_witness :
    signalsDistinct exOpsC9 ∧ noRemovals exOpsC9 ∧
    exec (CollisionWorld.new 0) exOpsC9 = some exWorldC9 ∧
    (0 : Nat) ≠ 1 ∧
    (altState (pairEvents 0 1 exWorldC9.narrow_phase.contact_events)).isSome = true :=
  ⟨⟨by decide, by decide, trivial⟩, trivial, rfl, by decide,
    contact_events_alternate exOpsC9 exWorldC9 ⟨by decide, by decide, trivial⟩ trivial rfl
      0 1 (by decide)⟩

/-- Counterexample to the original, removal-unrestricted C9 claim: with the
slab's faithful handle reuse, removing an in-contact object (which emits no
`Stopped`) and re-adding an object that reclaims its handle produces two
consecutive `Started 0 1` events across steps, so the pair's emission-ordered
subtrace `[Started 0 1, Started 0 1]` is rejected by the alternation
automaton. -/
theorem contact_events_reuse_violation :
    signalsDistinct exOpsC9cx ∧
    exec (CollisionWorld.new 0) exOpsC9cx = some exWorldC9cx ∧
    (0 : Nat) ≠ 1 ∧
    pairEvents 0 1 exWorldC9cx.narrow_phase.contact_events =
      [.Started 0 1, .Started 0 1] ∧
    (altState (pairEvents 0 1 exWorldC9cx.narrow_phase.contact_events)).isSome = false :=
  ⟨⟨by decide, by decide, trivial⟩, rfl, by decide, rfl, rfl⟩

end NcollideSpec
